import Mathlib

-- Verification of the ADM (Armon Data Management) reconciliation engine.
-- Shallow embedding of the Python sources:
--   adm_app/indexer.py      (document matching, change detection, run loop)
--   adm_app/excel_parser.py (BOM sheet parsing)
--   adm_app/search.py       (BOM line ordering, document queries)
--   adm_app/ui.py           (order explosion engine)
--   adm_app/mapping.py      (column mapper)
--   adm_app/db.py           (relational store primitives)
-- Python strings are modeled as Lean Strings (ASCII-faithful: Char.toUpper /
-- Char.toLower model str.upper()/str.casefold() on the ASCII range used by
-- this program), Python floats as exact rationals, and SQLite tables as lists
-- of records in rowid order.

namespace ADM

/-- Whitespace characters stripped by Python str.strip() (ASCII range). -/
def isPySpace (c : Char) : Bool :=
  c = ' ' || c = '\t' || c = '\n' || c = '\r' || c = '\x0b' || c = '\x0c'

/-- Model of Python str.strip() on a character list. -/
def stripChars (l : List Char) : List Char :=
  ((l.dropWhile isPySpace).reverse.dropWhile isPySpace).reverse

/-- Model of Python str.strip(). -/
def pyStrip (s : String) : String :=
  String.mk (stripChars s.data)

/-- Model of SQL TRIM(x): strips space characters only, from both ends. -/
def sqlTrim (s : String) : String :=
  String.mk (((s.data.dropWhile (· = ' ')).reverse.dropWhile (· = ' ')).reverse)

/-- Model of Python str.upper() (ASCII). -/
def upperS (s : String) : String :=
  String.mk (s.data.map Char.toUpper)

/-- Model of Python str.lower() / str.casefold() (ASCII). -/
def lowerS (s : String) : String :=
  String.mk (s.data.map Char.toLower)

/-- Model of SQL UPPER(COALESCE(x, '')) / Python str(x or "") on an optional string. -/
def coalesceStr (x : Option String) : String :=
  x.getD ""

/-- CPython pathlib: the final path component without its suffix.
The suffix exists only when the last dot sits at an index i with 0 < i < len-1. -/
def pyStem (name : String) : String :=
  let l := name.data
  let n := l.length
  match (List.range n).filter (fun i => l.getD i ' ' = '.') |>.getLast? with
  | none => name
  | some i => if 0 < i && i < n - 1 then String.mk (l.take i) else name

/-- Uppercase ASCII letter or digit: the character class [A-Z0-9]. -/
def isUpperAlnum (c : Char) : Bool :=
  c.isUpper || c.isDigit

/-- Regex word character \w (ASCII): letters, digits and the underscore. -/
def isWordC (c : Char) : Bool :=
  c.isAlphanum || c = '_'

/-- The separator class [_\-] used by the revision regexes. -/
def isSep (c : Char) : Bool :=
  c = '_' || c = '-'

/-- normalize_for_match (indexer.py): uppercase, then keep only [A-Z0-9]. -/
def normalizeForMatch (s : String) : String :=
  String.mk ((s.data.map Char.toUpper).filter isUpperAlnum)

/-- Stopword list COMMON_TOKENS (indexer.py). -/
def COMMON_TOKENS : List String :=
  ["THE", "AND", "FOR", "WITH", "MANUAL", "DOC", "DOCUMENT",
   "EN", "NL", "DE", "FR", "REV", "V"]

/-- Splits a character list into its maximal alphanumeric runs
(TOKEN_SPLIT_REGEX = [^A-Z0-9]+; empty chunks are dropped, matching the
later length filter in tokenize_for_match). -/
def alnumChunks (l : List Char) : List (List Char) :=
  let step := fun (c : Char) (acc : List Char × List (List Char)) =>
    let (cur, out) := acc
    if c.isAlphanum then (c :: cur, out)
    else ([], if cur.isEmpty then out else cur :: out)
  let (cur, out) := l.foldr step ([], [])
  if cur.isEmpty then out else cur :: out

/-- Keeps the first occurrence of every element (Python set insertion /
dict.fromkeys order). -/
def dedupFirst {α : Type} [DecidableEq α] : List α → List α
  | [] => []
  | a :: as => a :: (dedupFirst as).filter (· ≠ a)

/-- tokenize_for_match (indexer.py): uppercase, split on non-alphanumerics,
drop tokens shorter than 3 chars, pure digit runs, and stopwords. The Python
function returns a set; we keep a duplicate-free list. -/
def tokenizeForMatch (s : String) : List String :=
  dedupFirst <|
    (alnumChunks (s.data.map Char.toUpper)).filterMap fun chunk =>
      let tok := String.mk (stripChars chunk)
      if tok.length < 3 then none
      else if chunk.all Char.isDigit then none
      else if COMMON_TOKENS.contains tok then none
      else some tok

/-- Size of the intersection of two token sets (both duplicate-free). -/
def countInter (a b : List String) : Nat :=
  (a.filter (fun t => b.contains t)).length

-- ---------------------------------------------------------------------------
-- Regex models (indexer.py).
-- DOC_PART_PATTERN = (?<!\d)(\d{2}-\d{5,6})(?!\d)
-- PART_REGEX       = \b([A-Z]{0,4}\d{3,}[A-Z0-9\-]*)\b   (IGNORECASE)
-- and the three revision patterns of parse_document_part_and_revision.
-- Each is rendered as a deterministic scanner equivalent to the regex with
-- its (finite) backtracking resolved: a maximal run followed by a failing
-- boundary cannot be rescued by a shorter run when every shorter cut also
-- lands between two word characters.
-- ---------------------------------------------------------------------------

/-- Match of DOC_PART_PATTERN anchored at the head of the list: two digits,
a dash, then a maximal digit run that must have length 5 or 6 (a 7th digit
fails both the greedy 6-digit and the backtracked 5-digit attempt because of
the trailing (?!\d)). The caller checks the (?<!\d) lookbehind. -/
def docPartAt : List Char → Option (List Char)
  | d1 :: d2 :: '-' :: rest =>
    if d1.isDigit && d2.isDigit then
      let run := rest.takeWhile Char.isDigit
      if run.length = 5 || run.length = 6 then some (d1 :: d2 :: '-' :: run)
      else none
    else none
  | _ => none

/-- Leftmost search for DOC_PART_PATTERN; prevIsDigit carries the lookbehind. -/
def docPartSearchAux (prevIsDigit : Bool) : List Char → Option (List Char)
  | [] => none
  | c :: cs =>
    match (if prevIsDigit then none else docPartAt (c :: cs)) with
    | some r => some r
    | none => docPartSearchAux c.isDigit cs

/-- re.search of DOC_PART_PATTERN over a string. -/
def docPartSearch (l : List Char) : Option (List Char) :=
  docPartSearchAux false l

/-- Match of ([A-Z0-9]+)\b at the head of the list: the maximal [A-Z0-9] run,
nonempty, whose following character is not a word character. (If the next
character is a word character, every shorter cut of the run fails \b too,
because it sits between two word characters.) -/
def alnumRunBd (l : List Char) : Option String :=
  let run := l.takeWhile isUpperAlnum
  let rest := l.drop run.length
  if run.isEmpty then none
  else
    match rest with
    | [] => some (String.mk run)
    | c :: _ => if isWordC c then none else some (String.mk run)

/-- re.search of [_\-]REV[_\-]?([A-Z0-9]+)\b : the optional separator is
greedy, so a present separator is consumed first and the bare attempt is the
backtracking fallback. -/
def revSearchRevAux : List Char → Option String
  | [] => none
  | c :: cs =>
    (if isSep c then
      match cs with
      | 'R' :: 'E' :: 'V' :: rest =>
        (match rest with
         | x :: rest2 => if isSep x then alnumRunBd rest2 else none
         | [] => none).orElse (fun _ => alnumRunBd rest)
      | _ => none
    else none).orElse (fun _ => revSearchRevAux cs)

/-- re.search of {re.escape(part)}[_\-]([A-Z0-9]+)\b : the literal part
number, a separator, then a bounded alphanumeric run; every start position
is tried. -/
def revSearchAfterPartAux (pn : List Char) : List Char → Option String
  | [] => none
  | c :: cs =>
    (if pn.isPrefixOf (c :: cs) then
      match (c :: cs).drop pn.length with
      | x :: rest => if isSep x then alnumRunBd rest else none
      | [] => none
    else none).orElse (fun _ => revSearchAfterPartAux pn cs)

/-- re.search of [_\-]R([A-Z0-9]+)\b. -/
def revSearchRAux : List Char → Option String
  | [] => none
  | c :: cs =>
    (if isSep c then
      match cs with
      | 'R' :: rest => alnumRunBd rest
      | _ => none
    else none).orElse (fun _ => revSearchRAux cs)

/-- parse_document_part_and_revision (indexer.py): uppercase the stem, find
the part token, then try the three revision patterns in priority order. -/
def parseDocumentPartAndRevision (filename : String) :
    Option (String × Option String) :=
  let stemU := (pyStem filename).data.map Char.toUpper
  match docPartSearch stemU with
  | none => none
  | some pnChars =>
    let rev :=
      ((revSearchRevAux stemU).orElse
        (fun _ => revSearchAfterPartAux pnChars stemU)).orElse
        (fun _ => revSearchRAux stemU)
    some (String.mk pnChars, rev.map (fun r => upperS (pyStrip r)))

-- PART_REGEX = \b([A-Z]{0,4}\d{3,}[A-Z0-9\-]*)\b with IGNORECASE:
-- letters are [A-Za-z], the trailing class is letters, digits and dash.

/-- The trailing class [A-Z0-9\-] under IGNORECASE. -/
def classCharPR (c : Char) : Bool :=
  c.isAlphanum || c = '-'

/-- Whether a word boundary holds after cutting the match at offset j of
afterL (the region following the letter block). The end-of-string side counts
as a non-word character. -/
def boundaryAt (afterL : List Char) (j : Nat) : Bool :=
  match afterL.get? (j - 1) with
  | none => false
  | some last =>
    isWordC last != ((afterL.get? j).map isWordC).getD false

/-- Largest cut t with 3 ≤ t ≤ the given bound satisfying the end word
boundary: the greedy \d{3,}[A-Z0-9\-]* backtracks the end position from the
maximal class run down to the minimal three digits. -/
def bestCut (afterL : List Char) : Nat → Option Nat
  | 0 => none
  | t + 1 =>
    if t + 1 < 3 then none
    else if boundaryAt afterL (t + 1) then some (t + 1)
    else bestCut afterL t

/-- Match of PART_REGEX anchored at the head of the list (start boundary
checked by the caller). Returns the matched group and the number of
characters consumed. The letter block is forced: [A-Z]{0,4} must be followed
by a digit, so it must swallow the entire leading letter run, which therefore
may not exceed 4. -/
def matchPartRegexAt (l : List Char) : Option (List Char × Nat) :=
  let letters := l.takeWhile Char.isAlpha
  if letters.length > 4 then none
  else
    let afterL := l.drop letters.length
    let digits := afterL.takeWhile Char.isDigit
    if digits.length < 3 then none
    else
      let run := afterL.takeWhile classCharPR
      match bestCut afterL run.length with
      | none => none
      | some t => some (letters ++ run.take t, letters.length + t)

/-- PART_REGEX.finditer: scan left to right, non-overlapping, tracking the
previous character for the start word boundary. Structural recursion on a
fuel that starts at the list length: every step consumes at least one
character, so the fuel never runs out before the list does. -/
def partRegexAux : Nat → Option Char → List Char → List (List Char)
  | 0, _, _ => []
  | _, _, [] => []
  | fuel + 1, prev, c :: cs =>
    if (prev.map (fun p => !(isWordC p))).getD true then
      match matchPartRegexAt (c :: cs) with
      | some (g, n) => g :: partRegexAux fuel g.getLast? (cs.drop (n - 1))
      | none => partRegexAux fuel (some c) cs
    else partRegexAux fuel (some c) cs

/-- All PART_REGEX matches in a filename, in order. -/
def partRegexMatches (filename : String) : List (List Char) :=
  partRegexAux filename.data.length none filename.data

-- ---------------------------------------------------------------------------
-- Relational snapshot used by the document matcher (tables in rowid order).
-- ---------------------------------------------------------------------------

/-- Row of the parts table (part_number is stored uppercased by the indexer). -/
structure PartRow where
  id : Nat
  part_number : String
  description : Option String
deriving DecidableEq, Repr

/-- The slice of a bom_lines row consulted by the document matcher. -/
structure BomLineRev where
  part_id : Nat
  revision : Option String
deriving DecidableEq, Repr

/-- Snapshot of the tables the matcher reads. -/
structure MatchDb where
  parts : List PartRow
  bom_lines : List BomLineRev
deriving DecidableEq, Repr

/-- SELECT id FROM parts WHERE part_number=? (part_number is UNIQUE). -/
def findPartByNumber (db : MatchDb) (pn : String) : Option PartRow :=
  db.parts.find? (fun p => p.part_number = pn)

/-- find_part_match_with_revision (indexer.py): strategy 1 of the document
matcher. Returns (part_id, part_revision, link_reason). The SQL aggregate
always yields a row, so the dead `if not rev_stats` branch is not modeled. -/
def findPartMatchWithRevision (db : MatchDb) (filename : String) :
    Option Nat × Option String × Option String :=
  match parseDocumentPartAndRevision filename with
  | none => (none, none, none)
  | some (pn, revOpt) =>
    match findPartByNumber db pn with
    | none => (none, none, some "part_not_found_in_bom_index")
    | some p =>
      match revOpt with
      | some rev =>
        if db.bom_lines.any
            (fun l => l.part_id = p.id && upperS (coalesceStr l.revision) = rev) then
          (some p.id, some rev, some "matched_part_and_revision")
        else
          (none, none, some "revision_mismatch")
      | none =>
        let lines := db.bom_lines.filter (fun l => l.part_id = p.id)
        let emptyCount :=
          lines.countP (fun l => sqlTrim (coalesceStr l.revision) = "")
        let revCount :=
          (dedupFirst (lines.map (fun l => upperS (coalesceStr l.revision)))).length
        if 0 < emptyCount then (some p.id, none, some "matched_part_no_revision")
        else if revCount ≤ 1 then (some p.id, none, some "matched_part_single_revision")
        else (none, none, some "ambiguous_revision_required")

/-- Cached per-part matching data (load_parts_cache in indexer.py). -/
structure CacheItem where
  id : Nat
  part_number : String
  part_norm : String
  description_norm : String
  description_tokens : List String
deriving DecidableEq, Repr

/-- load_parts_cache (indexer.py): normalized part data, sorted by descending
normalized length. Python list.sort is stable, and a stable sort under a
total preorder has a unique result, so the stable insertionSort is a faithful
model of it. -/
def loadPartsCache (parts : List PartRow) : List CacheItem :=
  let items := parts.map fun r =>
    let pn := upperS (pyStrip r.part_number)
    let desc := pyStrip (coalesceStr r.description)
    { id := r.id
      part_number := pn
      part_norm := normalizeForMatch pn
      description_norm := if desc = "" then "" else normalizeForMatch desc
      description_tokens := tokenizeForMatch desc }
  items.insertionSort (fun a b => b.part_norm.length ≤ a.part_norm.length)

/-- Boolean contiguous-substring test on character lists. -/
def isInfixB (needle : List Char) : List Char → Bool
  | [] => needle.isPrefixOf []
  | c :: cs => needle.isPrefixOf (c :: cs) || isInfixB needle cs

/-- Python substring test needle in haystack, on normalized strings. -/
def isSubstr (needle hay : String) : Bool :=
  isInfixB needle.data hay.data

/-- Exact rational subtraction written with mkRat so that concrete instances
reduce under kernel evaluation; it equals a - b (lemma qsub_eq below). -/
def qsub (a b : ℚ) : ℚ :=
  mkRat (a.num * b.den - b.num * a.den) (a.den * b.den)

/-- Fallback 4 of find_part_id_from_name: token-overlap scoring. Python
iterates the candidate id set in unspecified order; the outcome is
order-independent (a tie at the top zeroes the winning margin), so we fold in
cache order. Scores are exact rationals standing in for Python floats:
score = overlap / max 1 |description tokens|. -/
def tokenOverlapMatch (cache : List CacheItem) (ftoks : List String) :
    Option Nat :=
  if ftoks.isEmpty then none
  else
    let cands := cache.filter
      (fun it => it.description_tokens.any (fun t => ftoks.contains t))
    if cands.isEmpty then none
    else
      let step := fun (acc : Option Nat × ℚ × ℚ) (it : CacheItem) =>
        let (bid, best, second) := acc
        if it.description_tokens.isEmpty then acc
        else
          let overlap := countInter ftoks it.description_tokens
          if overlap < 2 then acc
          else
            let score : ℚ :=
              mkRat (overlap : Int) (max 1 it.description_tokens.length)
            if best < score then (some it.id, score, best)
            else if second < score then (bid, best, score)
            else acc
      let r := cands.foldl step (none, 0, 0)
      match r.1 with
      | none => none
      | some pid =>
        if 0 < r.2.2 && qsub r.2.1 r.2.2 < mkRat 1 5 then none
        else if r.2.1 < mkRat 7 20 then none
        else some pid

/-- find_part_id_from_name (indexer.py): PART_REGEX tokens looked up in the
parts table, then the four normalized fallbacks over the cache. -/
def findPartIdFromName (db : MatchDb) (filename : String) : Option Nat :=
  let cache := loadPartsCache db.parts
  match (partRegexMatches filename).findSome?
      (fun g => (findPartByNumber db (upperS (String.mk g))).map (·.id)) with
  | some pid => some pid
  | none =>
    let filenameNorm := normalizeForMatch (pyStem filename)
    if filenameNorm = "" then none
    else
      match cache.find?
          (fun it => it.part_norm ≠ "" && it.part_norm = filenameNorm) with
      | some it => some it.id
      | none =>
        match cache.find?
            (fun it => 4 ≤ it.part_norm.length && isSubstr it.part_norm filenameNorm) with
        | some it => some it.id
        | none =>
          match cache.find?
              (fun it => 8 ≤ it.description_norm.length &&
                isSubstr it.description_norm filenameNorm) with
          | some it => some it.id
          | none => tokenOverlapMatch cache (tokenizeForMatch (pyStem filename))

/-- classify_unmatched_reason (indexer.py). -/
def classifyUnmatchedReason (db : MatchDb) (filename : String) : String :=
  match parseDocumentPartAndRevision filename with
  | none => "no_part_token_in_filename"
  | some (pn, revOpt) =>
    match findPartByNumber db pn with
    | none => "part_not_found_in_bom_index"
    | some _ =>
      match revOpt with
      | some _ => "revision_mismatch"
      | none => "ambiguous_or_missing_revision"

/-- Link fields computed for one discovered document. -/
structure MatchResult where
  linked_to_type : Option String
  linked_id : Option Nat
  part_revision : Option String
  link_reason : Option String
deriving DecidableEq, Repr

/-- The per-file matching decision of index_documents (indexer.py lines
193-221): strategy 1, then the fallback chain when it yielded no part, then
the unmatched classification when no strategy linked. -/
def matchDocument (db : MatchDb) (filename : String) : MatchResult :=
  let r1 := findPartMatchWithRevision db filename
  let partRev := r1.2.1
  let afterFallback :=
    match r1.1 with
    | some pid => (some pid, r1.2.2)
    | none =>
      match findPartIdFromName db filename with
      | some pid => (some pid, some "matched_part_fallback")
      | none => (none, r1.2.2)
  match afterFallback.1 with
  | some pid =>
    { linked_to_type := some "part", linked_id := some pid
      part_revision := partRev, link_reason := afterFallback.2 }
  | none =>
    { linked_to_type := none, linked_id := none
      part_revision := partRev
      link_reason :=
        match afterFallback.2 with
        | some r => some r
        | none => some (classifyUnmatchedReason db filename) }

-- ---------------------------------------------------------------------------
-- BOM change detection (run_index, indexer.py lines 62-87).
-- ---------------------------------------------------------------------------

/-- The slice of an articles row consulted by change detection. -/
structure ArticleSrcRow where
  id : Nat
  source_bom_path : Option String
  source_bom_modified_at : Option String
  source_bom_size_bytes : Option Int
deriving DecidableEq, Repr

/-- The existing_by_path dictionary of run_index: source paths casefolded,
blank paths skipped; a later row overwrites an earlier one with the same key
(dict assignment), hence the lookup scans from the end. -/
def lookupExistingByPath (rows : List ArticleSrcRow) (key : String) :
    Option ArticleSrcRow :=
  rows.reverse.find? fun row =>
    let sourcePath := pyStrip (coalesceStr row.source_bom_path)
    sourcePath ≠ "" && lowerS sourcePath = key

/-- Action taken by run_index for one discovered BOM file. -/
inductive FileAction
  | skip
  | reparse
deriving DecidableEq, Repr

/-- Change detection of run_index for one BOM file: resolvedPath is
str(bom_file.resolve()), modifiedAt the microsecond-precision isoformat of
the current mtime, sizeBytes the current byte size. The file is skipped only
when it is a known article source and both the recorded timestamp string and
the recorded size equal the current values (the stored NULLs coalesce to ""
and 0 as in the Python). -/
def bomFileAction (rows : List ArticleSrcRow) (resolvedPath : String)
    (modifiedAt : String) (sizeBytes : Int) : FileAction :=
  match lookupExistingByPath rows (lowerS resolvedPath) with
  | none => .reparse
  | some existing =>
    if coalesceStr existing.source_bom_modified_at = modifiedAt &&
        existing.source_bom_size_bytes.getD 0 = sizeBytes then
      .skip
    else
      .reparse

/-- Per-file store traffic of run_index, abstracted to the calls the claims
count: a skipped file issues no parse and no inserts; a reparsed file parses
once and issues one insert-bom-line call per parsed line carrying a nonempty
part number. -/
def bomFileCalls (rows : List ArticleSrcRow) (resolvedPath modifiedAt : String)
    (sizeBytes : Int) (parsedPartNumbers : List String) : Nat × Nat :=
  match bomFileAction rows resolvedPath modifiedAt sizeBytes with
  | .skip => (0, 0)
  | .reparse => (1, (parsedPartNumbers.filter (fun pn => pn ≠ "")).length)

-- ---------------------------------------------------------------------------
-- upsert_part (db.py lines 207-220).
-- ---------------------------------------------------------------------------

/-- upsert_part: INSERT .. ON CONFLICT(part_number) DO UPDATE SET
description = COALESCE(excluded.description, parts.description). On conflict
the stored description is kept only when the incoming one is NULL; the row id
and part_number are untouched. Returns the updated table and the row id. -/
def upsertPart (parts : List PartRow) (pn : String) (description : Option String) :
    List PartRow × Nat :=
  match parts.find? (fun p => p.part_number = pn) with
  | some existing =>
    (parts.map fun p =>
      if p.part_number = pn then
        { p with description := description.orElse (fun _ => p.description) }
      else p,
     existing.id)
  | none =>
    let newId := (parts.map (·.id)).foldr max 0 + 1
    (parts ++ [{ id := newId, part_number := pn, description := description }], newId)

-- ---------------------------------------------------------------------------
-- Transactional behaviour of one BOM file inside run_index
-- (indexer.py lines 75-144, db.py clear_article_lines_for_run / insert_bom_line).
-- ---------------------------------------------------------------------------

/-- One stored bom_lines row, reduced to its owning article and a payload
standing for the remaining columns. -/
structure StoredLine where
  article_id : Nat
  payload : String
deriving DecidableEq, Repr

/-- An sqlite3 connection: the committed snapshot sees only conn.commit(),
while statements act on the in-transaction state. -/
structure TxConn where
  committed : List StoredLine
  current : List StoredLine
deriving DecidableEq, Repr

/-- clear_article_lines_for_run: DELETE FROM bom_lines WHERE article_id=?. -/
def clearArticleLines (conn : TxConn) (articleId : Nat) : TxConn :=
  { conn with current := conn.current.filter (fun l => l.article_id ≠ articleId) }

/-- insert_bom_line for one parsed line. -/
def insertBomLine (conn : TxConn) (articleId : Nat) (payload : String) : TxConn :=
  { conn with current := conn.current ++ [{ article_id := articleId, payload := payload }] }

/-- conn.commit(): publish the in-transaction state to readers. -/
def txCommit (conn : TxConn) : TxConn :=
  { conn with committed := conn.current }

/-- Line replacement for one successfully parsed BOM file inside run_index.
failAt = none models the normal path: delete-all, insert every line, then
conn.commit(). failAt = some k models an exception raised by the k-th
insert_bom_line call (0-based; e.g. json.dumps failing on a raw_columns cell
such as a datetime): the failing statement itself does not apply, and the
except-handler logs the error issue and then calls conn.commit(), publishing
whatever the transaction already holds. -/
def processBomFileTx (conn : TxConn) (articleId : Nat) (newPayloads : List String)
    (failAt : Option Nat) : TxConn :=
  let cleared := clearArticleLines conn articleId
  match failAt with
  | none =>
    txCommit (newPayloads.foldl (fun c p => insertBomLine c articleId p) cleared)
  | some k =>
    txCommit ((newPayloads.take k).foldl (fun c p => insertBomLine c articleId p) cleared)

/-- Committed bom_lines of one article, as a reader sees them. -/
def committedLinesFor (conn : TxConn) (articleId : Nat) : List String :=
  (conn.committed.filter (fun l => l.article_id = articleId)).map (·.payload)

-- ---------------------------------------------------------------------------
-- Column mapper (mapping.py) and BOM sheet parser (excel_parser.py).
-- Worksheet cells are modeled as optional text values (an empty cell is
-- Python None). The numeric branches of the value converters apply to
-- non-text spreadsheet cells, which this embedding does not represent; a
-- numeric cell can never be the blank part-number cell the claims are about.
-- ---------------------------------------------------------------------------

/-- One worksheet cell. -/
inductive Cell
  | empty
  | text (s : String)
deriving DecidableEq, Repr

/-- Python str() applied to a cell value (str(None) is the string "None"). -/
def cellStr : Cell → String
  | .empty => "None"
  | .text s => s

/-- Lowercase ASCII letter or digit: the character class [a-z0-9]. -/
def isLowerAlnum (c : Char) : Bool :=
  c.isLower || c.isDigit

/-- normalize_header (mapping.py): strip, lowercase, keep only [a-z0-9]. -/
def normalizeHeader (s : String) : String :=
  String.mk (((pyStrip s).data.map Char.toLower).filter isLowerAlnum)

/-- CANONICAL_FIELDS (mapping.py), in dict insertion order. -/
def CANONICAL_FIELDS : List (String × List String) :=
  [("part_number", ["partno", "partnumber", "pn", "itemcode", "onderdeelnummer", "artikel"]),
   ("description", ["description", "desc", "omschrijving"]),
   ("qty", ["qty", "quantity", "aantal", "stuks"]),
   ("revision", ["rev", "revision", "versie"]),
   ("material", ["material", "materiaal"]),
   ("finish", ["finish", "afwerking"]),
   ("line_type", ["type", "parttype", "componenttype"]),
   ("status", ["status", "approvalstatus", "state"]),
   ("unit", ["uom", "unit", "eenheid"]),
   ("line_no", ["item", "itemno", "line", "regel", "pos", "position"])]

/-- map_headers (mapping.py): column index to canonical field, in column
order (dict keyed by the unique index, so insertion order is index order). -/
def mapHeaders (headers : List Cell) : List (Nat × String) :=
  headers.enum.filterMap fun p =>
    let norm := normalizeHeader (cellStr p.2)
    if norm = "" then none
    else
      (CANONICAL_FIELDS.find? fun f => norm = f.1 || f.2.contains norm).map
        (fun f => (p.1, f.1))

/-- detect_header (excel_parser.py): scan the first 30 rows for the mapping
with the strictly highest score that includes a part_number column. -/
def detectHeader (rows : List (List Cell)) : Option Nat × List (Nat × String) :=
  let step := fun (acc : Option Nat × List (Nat × String) × Int) (p : Nat × List Cell) =>
    let mapping := mapHeaders p.2
    let score : Int := mapping.length
    if acc.2.2 < score && (mapping.map (·.2)).contains "part_number" then
      (some p.1, mapping, score)
    else acc
  let r := (rows.take 30).enum.foldl step (none, [], -1)
  (r.1, r.2.1)

/-- read_cell (excel_parser.py): the first mapped column for the field whose
index is inside the row; a blank string cell reads as None. -/
def readCell (row : List Cell) (mapping : List (Nat × String)) (field : String) :
    Option String :=
  match mapping.find? (fun m => m.2 = field && m.1 < row.length) with
  | none => none
  | some m =>
    match row.getD m.1 .empty with
    | .empty => none
    | .text s => if pyStrip s = "" then none else some s

/-- to_text (excel_parser.py), text branch. -/
def toText (v : Option String) : Option String :=
  match v with
  | none => none
  | some s => if pyStrip s = "" then none else some (pyStrip s)

/-- Numeric value of an ASCII digit run. -/
def digitsToNat (l : List Char) : Nat :=
  l.foldl (fun a c => a * 10 + (c.toNat - '0'.toNat)) 0

/-- Model of Python float() on plain decimal literals with optional sign,
decimal point and exponent (the inf/nan/underscore forms do not occur in BOM
quantity cells). Returns the exact rational value. -/
def parseFloat? (s : String) : Option ℚ :=
  let l := s.data
  let (sgn, l) :=
    match l with
    | '+' :: rest => ((1 : Int), rest)
    | '-' :: rest => ((-1 : Int), rest)
    | _ => ((1 : Int), l)
  let intPart := l.takeWhile Char.isDigit
  let l := l.drop intPart.length
  let (fracPart, l) :=
    match l with
    | '.' :: rest => (rest.takeWhile Char.isDigit, rest.drop (rest.takeWhile Char.isDigit).length)
    | _ => ([], l)
  if intPart.isEmpty && fracPart.isEmpty then none
  else
    let mantissa : Int := sgn * (digitsToNat (intPart ++ fracPart) : Int)
    match l with
    | [] => some (mkRat mantissa (10 ^ fracPart.length))
    | e :: rest =>
      if e = 'e' || e = 'E' then
        let (esgn, rest) :=
          match rest with
          | '+' :: r => (true, r)
          | '-' :: r => (false, r)
          | _ => (true, rest)
        let eDigits := rest.takeWhile Char.isDigit
        if eDigits.isEmpty || rest.length ≠ eDigits.length then none
        else
          let ev := digitsToNat eDigits
          if esgn then some (mkRat (mantissa * 10 ^ ev) (10 ^ fracPart.length))
          else some (mkRat mantissa (10 ^ fracPart.length * 10 ^ ev))
      else none

/-- parse_qty (mapping.py), text branch: strip, comma as decimal point,
float(). -/
def parseQty (v : Option String) : Option ℚ :=
  match v with
  | none => none
  | some s =>
    let t := String.mk ((pyStrip s).data.map (fun c => if c = ',' then '.' else c))
    if t = "" then none else parseFloat? t

/-- to_int (excel_parser.py), text branch: a dotted value is accepted only
with a literal ".0" tail; otherwise the float value must be integral. -/
def toInt (v : Option String) : Option Int :=
  match v with
  | none => none
  | some s =>
    let t := pyStrip s
    if t = "" then none
    else if t.data.contains '.' && ¬ (t.data.reverse.take 2 = ['0', '.']) then none
    else
      match parseFloat? t with
      | none => none
      | some q => if q.den = 1 then some q.num else none

/-- Collapse every maximal run of dots to a single dot (re.sub("\.+", ".")). -/
def collapseDots (l : List Char) : List Char :=
  l.foldr
    (fun c acc =>
      match acc with
      | [] => [c]
      | d :: _ => if c = '.' && d = '.' then acc else c :: acc)
    []

/-- to_item_no (excel_parser.py), text branch: strip, drop spaces, collapse
dot runs, strip leading/trailing dots. -/
def toItemNo (v : Option String) : Option String :=
  match v with
  | none => none
  | some s =>
    let t := pyStrip s
    if t = "" then none
    else
      let t := (collapseDots (t.data.filter (fun c => c ≠ ' '))).dropWhile (· = '.')
      let t := (t.reverse.dropWhile (· = '.')).reverse
      if t.isEmpty then none else some (String.mk t)

/-- One canonical BOM line produced by the sheet parser. -/
structure ParsedLine where
  part_number : String
  description : Option String
  qty : Option ℚ
  revision : Option String
  material : Option String
  finish : Option String
  line_type : Option String
  status : Option String
  unit : Option String
  item_no : Option String
  line_no : Option Int
  raw_columns : List (String × String)
  source_sheet : String
  source_row_number : Nat
deriving DecidableEq, Repr

/-- Unmapped, nonempty cells retained verbatim (raw_columns in
parse_sheet_rows). -/
def rawColumnsOf (headers row : List Cell) (mapping : List (Nat × String)) :
    List (String × String) :=
  row.enum.filterMap fun p =>
    if (mapping.map (·.1)).contains p.1 then none
    else
      let key :=
        if p.1 < headers.length then pyStrip (cellStr (headers.getD p.1 .empty))
        else "col_" ++ toString (p.1 + 1)
      match p.2 with
      | .empty => none
      | .text s => if s = "" then none else some (key, s)

/-- parse_sheet_rows (excel_parser.py): find the header, then produce one
line per subsequent row whose part_number cell reads non-blank; rows with a
blank part cell are skipped silently. -/
def parseSheetRows (sheetName : String) (rows : List (List Cell)) :
    List ParsedLine :=
  match detectHeader rows with
  | (none, _) => []
  | (some headerIdx, mapping) =>
    if ¬ (mapping.map (·.2)).contains "part_number" then []
    else
      (rows.drop (headerIdx + 1)).enum.filterMap fun p =>
        match readCell p.2 mapping "part_number" with
        | none => none
        | some part =>
          some
            { part_number := pyStrip part
              description := toText (readCell p.2 mapping "description")
              qty := parseQty (readCell p.2 mapping "qty")
              revision := toText (readCell p.2 mapping "revision")
              material := toText (readCell p.2 mapping "material")
              finish := toText (readCell p.2 mapping "finish")
              line_type := toText (readCell p.2 mapping "line_type")
              status := toText (readCell p.2 mapping "status")
              unit := toText (readCell p.2 mapping "unit")
              item_no := toItemNo (readCell p.2 mapping "line_no")
              line_no := toInt (readCell p.2 mapping "line_no")
              raw_columns := rawColumnsOf (rows.getD headerIdx []) p.2 mapping
              source_sheet := sheetName
              source_row_number := headerIdx + 2 + p.1 }

/-- An import issue logged against the current run. -/
structure RunIssue where
  severity : String
  message : String
  file_path : Option String
  sheet_name : Option String
  row_number : Option Nat
deriving DecidableEq, Repr

/-- The per-line loop of run_index (indexer.py lines 99-132): a parsed line
without a part number counts one warning and logs a warning issue carrying
the file, sheet and row; every other line is inserted. Returns
(warnings, inserted lines, issues). -/
def runIndexLineLoop (filePath : String) (lines : List ParsedLine) :
    Nat × Nat × List RunIssue :=
  lines.foldl
    (fun acc l =>
      if l.part_number = "" then
        (acc.1 + 1, acc.2.1,
         acc.2.2 ++
           [{ severity := "warning"
              message := "Skipped BOM row without part number"
              file_path := some filePath
              sheet_name := some l.source_sheet
              row_number := some l.source_row_number }])
      else (acc.1, acc.2.1 + 1, acc.2.2))
    (0, 0, [])

-- ---------------------------------------------------------------------------
-- Ordered BOM line query (search.py get_article_bom_lines /
-- bom_line_sort_key). Python tuple comparison is modeled with explicit
-- comparators; sorted() is stable, and so is insertionSort.
-- ---------------------------------------------------------------------------

/-- Three-way comparison on Nat. -/
def cmpNat (a b : Nat) : Ordering :=
  if a < b then .lt else if b < a then .gt else .eq

/-- Three-way comparison on Int. -/
def cmpInt (a b : Int) : Ordering :=
  if a < b then .lt else if b < a then .gt else .eq

/-- Three-way comparison on characters, by code point. -/
def cmpChar (a b : Char) : Ordering :=
  cmpNat a.toNat b.toNat

/-- Lexicographic comparison of lists (Python tuple comparison: a strict
prefix is smaller). -/
def cmpList {α : Type} (cmp : α → α → Ordering) : List α → List α → Ordering
  | [], [] => .eq
  | [], _ :: _ => .lt
  | _ :: _, [] => .gt
  | a :: as, b :: bs =>
    match cmp a b with
    | .eq => cmpList cmp as bs
    | o => o

/-- Python string comparison: code point by code point. -/
def cmpStr (a b : String) : Ordering :=
  cmpList cmpChar a.data b.data

/-- One element of the Python key tuple for an item_no segment: (0, int) for
a digit run, (1, str) otherwise; integers sort before strings because the
tags differ. line_no reuses the (0, int) shape. -/
inductive SortTok
  | num (n : Int)
  | str (s : String)
deriving DecidableEq, Repr

/-- Comparison of key segments ((0, int) vs (1, str) tuples). -/
def cmpTok : SortTok → SortTok → Ordering
  | .num a, .num b => cmpInt a b
  | .num _, .str _ => .lt
  | .str _, .num _ => .gt
  | .str a, .str b => cmpStr a b

/-- The columns of a fetched BOM line row that bom_line_sort_key reads. -/
structure BomSortRow where
  item_no : Option String
  line_no : Option Int
  part_number : Option String
deriving DecidableEq, Repr

/-- Python str.split(".") on a character list: separator-delimited segments,
empty segments kept. -/
def splitOnDot (l : List Char) : List (List Char) :=
  l.foldr
    (fun c acc =>
      match acc with
      | [] => [[c]]
      | g :: gs => if c = '.' then [] :: g :: gs else (c :: g) :: gs)
    [[]]

/-- bom_line_sort_key (search.py): group 0 for a non-blank item_no with its
dotted segments ((0, int) for digit runs, (1, str) otherwise), group 1 by
line_no for blank item_no, group 2 for neither; part_number is the final
tuple component. -/
def bomLineSortKey (row : BomSortRow) : Nat × List SortTok × String :=
  let item := pyStrip (coalesceStr row.item_no)
  let pn := coalesceStr row.part_number
  if item ≠ "" then
    (0,
     (splitOnDot item.data).map fun tok =>
       if ¬ tok.isEmpty && tok.all Char.isDigit then
         SortTok.num (digitsToNat tok)
       else SortTok.str (String.mk tok),
     pn)
  else
    match row.line_no with
    | some n => (1, [SortTok.num n], pn)
    | none => (2, [], pn)

/-- Comparison of full sort keys. -/
def cmpKey (k1 k2 : Nat × List SortTok × String) : Ordering :=
  (cmpNat k1.1 k2.1).then ((cmpList cmpTok k1.2.1 k2.2.1).then (cmpStr k1.2.2 k2.2.2))

/-- The (total, transitive) order used by sorted(rows, key=bom_line_sort_key). -/
def bomRowLE (a b : BomSortRow) : Prop :=
  cmpKey (bomLineSortKey a) (bomLineSortKey b) ≠ .gt

instance : DecidableRel bomRowLE := fun a b => by
  unfold bomRowLE
  infer_instance

/-- get_article_bom_lines (search.py): the fetched rows of the article (in
rowid order) sorted stably by bom_line_sort_key. -/
def sortBomLines (rows : List BomSortRow) : List BomSortRow :=
  rows.insertionSort bomRowLE

-- ---------------------------------------------------------------------------
-- Documents query (search.py get_documents_for_part_revision).
-- ---------------------------------------------------------------------------

/-- One documents row, reduced to the columns the queries and the cart read. -/
structure DocRow where
  id : Nat
  filename : String
  path : String
  linked_to_type : Option String
  linked_id : Option Nat
  part_revision : Option String
deriving DecidableEq, Repr

/-- ORDER BY filename (binary collation; code point comparison on ASCII),
stable on ties by rowid order. -/
def docLE (a b : DocRow) : Prop :=
  cmpStr a.filename b.filename ≠ .gt

instance : DecidableRel docLE := fun a b => by
  unfold docLE
  infer_instance

/-- Documents linked to the given part, in filename order. -/
def docsLinkedToPart (docs : List DocRow) (partId : Nat) : List DocRow :=
  (docs.filter fun d =>
    d.linked_to_type = some "part" && d.linked_id = some partId).insertionSort docLE

/-- get_documents_for_part_revision (search.py): with a non-blank revision,
return the part documents whose UPPER(COALESCE(part_revision, '')) equals the
stripped uppercased revision, falling back to every part document when that
filter is empty; with a blank or missing revision, return every part
document. -/
def getDocumentsForPartRevision (docs : List DocRow) (partId : Nat)
    (revision : Option String) : List DocRow :=
  let wantFilter :=
    match revision with
    | none => false
    | some r => r ≠ "" && pyStrip r ≠ ""
  if wantFilter then
    let rev := upperS (pyStrip (coalesceStr revision))
    let filtered :=
      (docs.filter fun d =>
        d.linked_to_type = some "part" && d.linked_id = some partId &&
          upperS (coalesceStr d.part_revision) = rev).insertionSort docLE
    if filtered.isEmpty then docsLinkedToPart docs partId else filtered
  else docsLinkedToPart docs partId

-- ---------------------------------------------------------------------------
-- Order explosion engine (ui.py add_article_children_to_cart,
-- add_leaf_row_to_cart, resolve_article_ref_id, article_number_candidates).
-- Quantities are exact rationals standing in for Python floats; qmul / qadd
-- are rational multiplication and addition written with mkRat so that
-- concrete runs reduce under kernel evaluation (bridging lemmas below).
-- ---------------------------------------------------------------------------

/-- Exact rational multiplication via mkRat; equals a * b (lemma qmul_eq). -/
def qmul (a b : ℚ) : ℚ :=
  mkRat (a.num * b.num) (a.den * b.den)

/-- Exact rational addition via mkRat; equals a + b (lemma qadd_eq). -/
def qadd (a b : ℚ) : ℚ :=
  mkRat (a.num * b.den + b.num * a.den) (a.den * b.den)

/-- Maximal digit runs of length at least 3 (re.findall(r"\d{3,}", s)). -/
def digitRuns (l : List Char) : List String :=
  let step := fun (c : Char) (acc : List Char × List (List Char)) =>
    let (cur, out) := acc
    if c.isDigit then (c :: cur, out)
    else ([], if cur.isEmpty then out else cur :: out)
  let (cur, out) := l.foldr step ([], [])
  ((if cur.isEmpty then out else cur :: out).filter fun run => 3 ≤ run.length).map
    String.mk

/-- Sorting key order of article_number_candidates: longer tokens first,
then lexicographically (sorted(set(tokens), key=(-len(v), v))). -/
def candLE (a b : String) : Prop :=
  b.length < a.length ∨ (a.length = b.length ∧ cmpStr a b ≠ .gt)

instance : DecidableRel candLE := fun a b => by
  unfold candLE
  infer_instance

/-- article_number_candidates (ui.py): the part number itself, then each
distinct 3+ digit run (longest first, ties lexicographic), each followed by
its leading-zero-stripped variant, duplicates skipped. -/
def articleNumberCandidates (partNumber : String) : List String :=
  let raw := pyStrip partNumber
  if raw = "" then []
  else
    let tokens := (dedupFirst (digitRuns raw.data)).insertionSort candLE
    tokens.foldl
      (fun cands token =>
        let cands :=
          if cands.contains token then cands else cands ++ [token]
        let trimmed := String.mk (token.data.dropWhile (· = '0'))
        if trimmed ≠ "" && ¬ cands.contains trimmed then cands ++ [trimmed]
        else cands)
      [raw]

/-- An articles row for sub-assembly resolution: (id, article_number). -/
structure ArticleIdRow where
  id : Nat
  article_number : String
deriving DecidableEq, Repr

/-- resolve_article_ref_id (ui.py): the first candidate that names a known
article wins (get_article_by_number per candidate). -/
def resolveArticleRefId (articles : List ArticleIdRow) (partNumber : String) :
    Option Nat :=
  (articleNumberCandidates partNumber).findSome? fun cand =>
    (articles.find? (fun a => a.article_number = cand)).map (·.id)

/-- One BOM line row as consumed by the explosion engine (the joined result
of get_article_bom_lines). -/
structure ExpLine where
  part_id : Nat
  part_number : String
  qty : Option ℚ
  revision : Option String
  item_no : Option String
  description : Option String
  material : Option String
  finish : Option String
deriving DecidableEq, Repr

/-- Relational snapshot for the explosion engine: articles, each article's
BOM lines as returned (ordered) by get_article_bom_lines, and the documents
table consulted for the cart's document list. -/
structure ExpDb where
  articles : List ArticleIdRow
  linesFor : List (Nat × List ExpLine)
  documents : List DocRow
deriving DecidableEq, Repr

/-- The get_article_bom_lines rows of one article. -/
def expLinesOf (db : ExpDb) (articleId : Nat) : List ExpLine :=
  ((db.linesFor.find? (fun p => p.1 = articleId)).map (·.2)).getD []

/-- One order-cart entry (the dict stored per cart key in ui.py). -/
structure CartEntry where
  article_id : Nat
  item_no : String
  part_id : Nat
  part_number : String
  revision : String
  description : String
  material : String
  finish : String
  qty_total : ℚ
  docs : List String
  docs_count : Nat
deriving DecidableEq, Repr

/-- The order cart: a dict keyed by the compound cart key, in insertion
order. -/
abbrev Cart : Type := List (String × CartEntry)

/-- The compound cart key f-string: article_id, item_no, part_number and
uppercased revision joined with bars. -/
def mkCartKey (articleId : Nat) (itemNo pn rev : String) : String :=
  toString articleId ++ "|" ++ itemNo ++ "|" ++ pn ++ "|" ++ rev

/-- add_leaf_row_to_cart (ui.py): skip blank part numbers; create the entry
on first sight of the key (documents fetched per part and revision), then
accumulate qty_total by the effective quantity. -/
def addLeafRowToCart (db : ExpDb) (cart : Cart) (line : ExpLine)
    (sourceArticleId : Nat) (qtyEffective : ℚ) : Cart × Bool :=
  let pn := pyStrip line.part_number
  if pn = "" then (cart, false)
  else
    let revision := upperS (pyStrip (coalesceStr line.revision))
    let itemNo := pyStrip (coalesceStr line.item_no)
    let key := mkCartKey sourceArticleId itemNo pn revision
    let cart :=
      if (cart.map (·.1)).contains key then cart
      else
        let docsFound :=
          getDocumentsForPartRevision db.documents line.part_id
            (if revision = "" then none else some revision)
        cart ++
          [(key,
            { article_id := sourceArticleId
              item_no := itemNo
              part_id := line.part_id
              part_number := pn
              revision := revision
              description := coalesceStr line.description
              material := coalesceStr line.material
              finish := coalesceStr line.finish
              qty_total := 0
              docs := (docsFound.map (·.path)).filter (fun f => f ≠ "")
              docs_count := docsFound.length })]
    (cart.map fun p =>
      if p.1 = key then (p.1, { p.2 with qty_total := qadd p.2.qty_total qtyEffective })
      else p,
     true)

/-- Warnings accumulated by the explosion engine; the constructors stand for
the distinct translated message strings with their interpolated arguments. -/
inductive ExpWarning
  | maxDepth
  | cycleDetected (part : String)
  | noLines (articleId : Nat)
  | missingSubassembly (part : String)
deriving DecidableEq, Repr

/-- Cart and warning list threaded through the explosion. -/
structure ExpState where
  cart : Cart
  warnings : List ExpWarning
deriving DecidableEq

/-- add_article_children_to_cart (ui.py lines 1446-1482). The Python guard
is depth > 20 with depth incremented on each recursion; fuel = 21 - depth is
the same guard flipped into structural recursion, so fuel 0 is the exceeded
cap and the top-level call at depth 0 has fuel 21. Returns the new state and
the number of added leaf lines. -/
def addArticleChildrenToCart (db : ExpDb) :
    Nat → Nat → ℚ → List Nat → ExpState → ExpState × Nat
  | 0, _, _, _, st =>
    ({ st with warnings := st.warnings ++ [.maxDepth] }, 0)
  | fuel + 1, articleId, qtyFactor, visited, st =>
    let lines := expLinesOf db articleId
    if lines.isEmpty then
      ({ st with warnings := st.warnings ++ [.noLines articleId] }, 0)
    else
      lines.foldl
        (fun acc line =>
          let linePart := pyStrip line.part_number
          if linePart = "" then acc
          else
            let lineQty := line.qty.getD 1
            let eff := qmul qtyFactor lineQty
            match resolveArticleRefId db.articles linePart with
            | some childId =>
              if visited.contains childId then
                ({ acc.1 with
                    warnings := acc.1.warnings ++ [.cycleDetected linePart] },
                 acc.2)
              else
                let r :=
                  addArticleChildrenToCart db fuel childId eff
                    (childId :: visited) acc.1
                (r.1, acc.2 + r.2)
            | none =>
              let r := addLeafRowToCart db acc.1.cart line articleId eff
              ({ acc.1 with cart := r.1 }, acc.2 + (if r.2 then 1 else 0)))
        (st, 0)

/-- Warning display of add_selected_bom_to_order:
list(dict.fromkeys(warnings)) keeps the first occurrence of each warning. -/
def dedupWarnings (ws : List ExpWarning) : List ExpWarning :=
  dedupFirst ws

/-- Quantity accumulated in the cart under one key. -/
def cartQty (cart : Cart) (key : String) : ℚ :=
  ((cart.find? (fun p => p.1 = key)).map (fun p => p.2.qty_total)).getD 0

-- ---------------------------------------------------------------------------
-- Concrete snapshots used by the counterexamples and witnesses. exampleDbRevB
-- is the spec's own test scenario: an indexed part 15-00407 whose only
-- BOM-line revision is "B".
-- ---------------------------------------------------------------------------

/-- Parts index with 15-00407 and a single BOM line of revision "B". -/
def exampleDbRevB : MatchDb :=
  { parts := [{ id := 1, part_number := "15-00407", description := some "Bracket" }]
    bom_lines := [{ part_id := 1, revision := some "B" }] }

/-- Parts index whose part has BOM-line revisions NULL, "A" and "B". -/
def exampleDbBlankAB : MatchDb :=
  { parts := [{ id := 1, part_number := "15-00407", description := some "Bracket" }]
    bom_lines := [{ part_id := 1, revision := none },
                  { part_id := 1, revision := some "A" },
                  { part_id := 1, revision := some "B" }] }

/-- Articles 100 and 200 referencing each other through their part numbers:
a sub-assembly cycle. -/
def exampleDbCycle : ExpDb :=
  { articles := [{ id := 1, article_number := "100" },
                 { id := 2, article_number := "200" }]
    linesFor :=
      [(1, [{ part_id := 1, part_number := "200", qty := some 1, revision := none,
              item_no := none, description := some "d", material := none, finish := none }]),
       (2, [{ part_id := 2, part_number := "100", qty := some 1, revision := none,
              item_no := none, description := some "d", material := none, finish := none }])]
    documents := [] }

/-- Article 100 holding a qty-3 line referencing sub-assembly 200, which
holds a qty-1 terminal part P-1. -/
def exampleDbNested : ExpDb :=
  { articles := [{ id := 1, article_number := "100" },
                 { id := 2, article_number := "200" }]
    linesFor :=
      [(1, [{ part_id := 1, part_number := "200", qty := some 3, revision := none,
              item_no := some "1", description := some "d", material := none, finish := none }]),
       (2, [{ part_id := 2, part_number := "P-1", qty := some 1, revision := none,
              item_no := some "10", description := some "d", material := none, finish := none }])]
    documents := [] }

/-- A worksheet with a recognizable header row, one ordinary data row, one
data row whose part cell is blank, and one fully empty row. -/
def exampleSheet : List (List Cell) :=
  [[.text "Item No.", .text "Part Number", .text "Revision", .text "Qty"],
   [.text "10", .text "SCREW-001", .text "A", .text "4"],
   [.text "20", .text " ", .text "B", .text "1"],
   [.empty, .empty, .empty, .empty]]

-- ===========================================================================
-- Theorems. Bridging lemmas first, then the claims C1 to C10.
-- ===========================================================================

theorem qmul_eq (a b : ℚ) : qmul a b = a * b := by
  have ha : (a.den : ℤ) ≠ 0 := Int.natCast_ne_zero.mpr a.den_nz
  have hb : (b.den : ℤ) ≠ 0 := Int.natCast_ne_zero.mpr b.den_nz
  rw [qmul, Rat.mkRat_eq_divInt, Int.natCast_mul, ← Rat.divInt_mul_divInt _ _ ha hb,
    Rat.num_divInt_den, Rat.num_divInt_den]

theorem qadd_eq (a b : ℚ) : qadd a b = a + b := by
  have ha : (a.den : ℤ) ≠ 0 := Int.natCast_ne_zero.mpr a.den_nz
  have hb : (b.den : ℤ) ≠ 0 := Int.natCast_ne_zero.mpr b.den_nz
  rw [qadd, Rat.mkRat_eq_divInt, Int.natCast_mul, ← Rat.divInt_add_divInt _ _ ha hb,
    Rat.num_divInt_den, Rat.num_divInt_den]

theorem qsub_eq (a b : ℚ) : qsub a b = a - b := by
  have ha : (a.den : ℤ) ≠ 0 := Int.natCast_ne_zero.mpr a.den_nz
  have hb : (b.den : ℤ) ≠ 0 := Int.natCast_ne_zero.mpr b.den_nz
  rw [qsub, Rat.mkRat_eq_divInt, Int.natCast_mul, ← Rat.divInt_sub_divInt _ _ ha hb,
    Rat.num_divInt_den, Rat.num_divInt_den]

theorem dedupFirst_nodup {α : Type} [DecidableEq α] (l : List α) :
    (dedupFirst l).Nodup := by
  induction l with
  | nil => simp [dedupFirst]
  | cons a as ih =>
    simp only [dedupFirst, List.nodup_cons]
    refine ⟨fun hmem => ?_, ih.filter _⟩
    have := (List.mem_filter.mp hmem).2
    simp at this

theorem mem_dedupFirst {α : Type} [DecidableEq α] (l : List α) (x : α) :
    x ∈ dedupFirst l ↔ x ∈ l := by
  induction l with
  | nil => simp [dedupFirst]
  | cons a as ih =>
    simp only [dedupFirst, List.mem_cons]
    constructor
    · intro h
      rcases h with h | h
      · exact Or.inl h
      · exact Or.inr (ih.mp (List.mem_filter.mp h).1)
    · intro h
      rcases h with h | h
      · exact Or.inl h
      · by_cases hx : x = a
        · exact Or.inl hx
        · exact Or.inr (List.mem_filter.mpr ⟨ih.mpr h, by simpa using hx⟩)

/-- Soundness bundle for a three-way comparator: antisymmetric orientation,
transitivity of the strict part, and substitutivity of the equal verdict. -/
structure LawfulCmp {α : Type} (cmp : α → α → Ordering) : Prop where
  oriented : ∀ a b, cmp a b = (cmp b a).swap
  translt : ∀ a b c, cmp a b = .lt → cmp b c = .lt → cmp a c = .lt
  congr_left : ∀ a b, cmp a b = .eq → ∀ c, cmp a c = cmp b c

theorem LawfulCmp.congr_right {α : Type} {cmp : α → α → Ordering}
    (h : LawfulCmp cmp) (a b : α) (hab : cmp a b = .eq) (c : α) :
    cmp c a = cmp c b := by
  have h1 := h.oriented c a
  have h2 := h.oriented c b
  rw [h1, h2, h.congr_left a b hab c]

theorem LawfulCmp.le_total {α : Type} {cmp : α → α → Ordering}
    (h : LawfulCmp cmp) (a b : α) : cmp a b ≠ .gt ∨ cmp b a ≠ .gt := by
  have := h.oriented a b
  cases hab : cmp a b <;> cases hba : cmp b a <;> simp_all [Ordering.swap]

theorem LawfulCmp.le_trans {α : Type} {cmp : α → α → Ordering}
    (h : LawfulCmp cmp) {a b c : α} (hab : cmp a b ≠ .gt) (hbc : cmp b c ≠ .gt) :
    cmp a c ≠ .gt := by
  cases h1 : cmp a b with
  | gt => exact absurd h1 hab
  | eq => rw [h.congr_left a b h1 c]; exact hbc
  | lt =>
    cases h2 : cmp b c with
    | gt => exact absurd h2 hbc
    | eq => rw [h.congr_right b c h2 a] at h1; simp [h1]
    | lt => simp [h.translt a b c h1 h2]

theorem cmpNat_lt_iff (a b : Nat) : cmpNat a b = .lt ↔ a < b := by
  unfold cmpNat
  split_ifs with h1 h2 <;> simp_all

theorem cmpNat_eq_iff (a b : Nat) : cmpNat a b = .eq ↔ a = b := by
  unfold cmpNat
  split_ifs with h1 h2 <;> simp_all <;> omega

theorem lawful_cmpNat : LawfulCmp cmpNat := by
  refine ⟨?_, ?_, ?_⟩
  · intro a b
    unfold cmpNat
    by_cases h1 : a < b
    · simp [h1, Nat.lt_asymm h1, Ordering.swap]
    · by_cases h2 : b < a
      · simp [h1, h2, Ordering.swap]
      · simp [h1, h2, Ordering.swap]
  · intro a b c hab hbc
    rw [cmpNat_lt_iff] at *
    omega
  · intro a b hab c
    rw [cmpNat_eq_iff] at hab
    subst hab
    rfl

theorem cmpInt_lt_iff (a b : Int) : cmpInt a b = .lt ↔ a < b := by
  unfold cmpInt
  split_ifs with h1 h2 <;> simp_all

theorem cmpInt_eq_iff (a b : Int) : cmpInt a b = .eq ↔ a = b := by
  unfold cmpInt
  split_ifs with h1 h2 <;> simp_all <;> omega

theorem lawful_cmpInt : LawfulCmp cmpInt := by
  refine ⟨?_, ?_, ?_⟩
  · intro a b
    unfold cmpInt
    by_cases h1 : a < b
    · simp [h1, Int.lt_asymm h1, Ordering.swap]
    · by_cases h2 : b < a
      · simp [h1, h2, Ordering.swap]
      · simp [h1, h2, Ordering.swap]
  · intro a b c hab hbc
    rw [cmpInt_lt_iff] at *
    omega
  · intro a b hab c
    rw [cmpInt_eq_iff] at hab
    subst hab
    rfl

theorem lawful_cmpChar : LawfulCmp cmpChar := by
  refine ⟨?_, ?_, ?_⟩
  · intro a b
    exact lawful_cmpNat.oriented a.toNat b.toNat
  · intro a b c
    exact lawful_cmpNat.translt a.toNat b.toNat c.toNat
  · intro a b hab c
    exact lawful_cmpNat.congr_left a.toNat b.toNat hab c.toNat

theorem lawful_cmpList {α : Type} {cmp : α → α → Ordering} (h : LawfulCmp cmp) :
    LawfulCmp (cmpList cmp) := by
  refine ⟨?_, ?_, ?_⟩
  · intro a
    induction a with
    | nil => intro b; cases b <;> simp [cmpList, Ordering.swap]
    | cons x xs ih =>
      intro b
      cases b with
      | nil => simp [cmpList, Ordering.swap]
      | cons y ys =>
        simp only [cmpList]
        rw [h.oriented x y]
        cases hxy : cmp y x <;> simp [Ordering.swap, ih ys]
  · intro a
    induction a with
    | nil =>
      intro b c hab hbc
      cases b <;> cases c <;> simp_all [cmpList]
    | cons x xs ih =>
      intro b c hab hbc
      cases b with
      | nil => simp [cmpList] at hab
      | cons y ys =>
        cases c with
        | nil => simp [cmpList] at hbc
        | cons z zs =>
          simp only [cmpList] at *
          cases hxy : cmp x y with
          | gt => simp [hxy] at hab
          | lt =>
            cases hyz : cmp y z with
            | gt => simp [hyz] at hbc
            | lt => simp [h.translt x y z hxy hyz]
            | eq => rw [h.congr_right y z hyz x] at hxy; simp [hxy]
          | eq =>
            rw [h.congr_left x y hxy z]
            cases hyz : cmp y z with
            | gt => simp [hyz] at hbc
            | lt => simp [hyz]
            | eq =>
              simp only [hxy, hyz] at hab hbc ⊢
              exact ih ys zs hab hbc
  · intro a
    induction a with
    | nil =>
      intro b hab c
      cases b <;> simp_all [cmpList]
    | cons x xs ih =>
      intro b hab c
      cases b with
      | nil => simp [cmpList] at hab
      | cons y ys =>
        simp only [cmpList] at hab
        cases hxy : cmp x y with
        | gt => simp [hxy] at hab
        | lt => simp [hxy] at hab
        | eq =>
          simp only [hxy] at hab
          cases c with
          | nil => simp [cmpList]
          | cons z zs =>
            simp only [cmpList]
            rw [h.congr_left x y hxy z, ih ys hab zs]

theorem lawful_cmpStr : LawfulCmp cmpStr := by
  refine ⟨?_, ?_, ?_⟩
  · intro a b
    exact (lawful_cmpList lawful_cmpChar).oriented a.data b.data
  · intro a b c
    exact (lawful_cmpList lawful_cmpChar).translt a.data b.data c.data
  · intro a b hab c
    exact (lawful_cmpList lawful_cmpChar).congr_left a.data b.data hab c.data

theorem lawful_cmpTok : LawfulCmp cmpTok := by
  refine ⟨?_, ?_, ?_⟩
  · intro a b
    cases a with
    | num x =>
      cases b with
      | num y => exact lawful_cmpInt.oriented x y
      | str y => rfl
    | str x =>
      cases b with
      | num y => rfl
      | str y => exact lawful_cmpStr.oriented x y
  · intro a b c hab hbc
    cases a with
    | num x =>
      cases c with
      | num z =>
        cases b with
        | num y => exact lawful_cmpInt.translt x y z hab hbc
        | str y => simp [cmpTok] at hbc
      | str z => rfl
    | str x =>
      cases b with
      | num y => simp [cmpTok] at hab
      | str y =>
        cases c with
        | num z => simp [cmpTok] at hbc
        | str z => exact lawful_cmpStr.translt x y z hab hbc
  · intro a b hab c
    cases a with
    | num x =>
      cases b with
      | num y =>
        cases c with
        | num z => exact lawful_cmpInt.congr_left x y hab z
        | str z => rfl
      | str y => simp [cmpTok] at hab
    | str x =>
      cases b with
      | num y => simp [cmpTok] at hab
      | str y =>
        cases c with
        | num z => rfl
        | str z => exact lawful_cmpStr.congr_left x y hab z

theorem lawful_comap {α β : Type} (f : α → β) {cmp : β → β → Ordering}
    (h : LawfulCmp cmp) : LawfulCmp (fun a b => cmp (f a) (f b)) := by
  refine ⟨?_, ?_, ?_⟩
  · intro a b
    exact h.oriented (f a) (f b)
  · intro a b c
    exact h.translt (f a) (f b) (f c)
  · intro a b hab c
    exact h.congr_left (f a) (f b) hab (f c)

theorem lawful_then {α : Type} {c1 c2 : α → α → Ordering}
    (h1 : LawfulCmp c1) (h2 : LawfulCmp c2) :
    LawfulCmp (fun a b => (c1 a b).then (c2 a b)) := by
  refine ⟨?_, ?_, ?_⟩
  · intro a b
    rw [h1.oriented a b, h2.oriented a b]
    cases c1 b a <;> cases c2 b a <;> rfl
  · intro a b c hab hbc
    simp only at *
    cases e1 : c1 a b with
    | gt => rw [e1] at hab; simp [Ordering.then] at hab
    | lt =>
      cases f1 : c1 b c with
      | gt => rw [f1] at hbc; simp [Ordering.then] at hbc
      | lt => rw [h1.translt a b c e1 f1]; rfl
      | eq =>
        rw [← h1.congr_right b c f1 a, e1]
        rfl
    | eq =>
      rw [e1] at hab
      simp only [Ordering.then] at hab
      cases f1 : c1 b c with
      | gt => rw [f1] at hbc; simp [Ordering.then] at hbc
      | lt => rw [h1.congr_left a b e1 c, f1]; rfl
      | eq =>
        rw [f1] at hbc
        simp only [Ordering.then] at hbc
        rw [h1.congr_left a b e1 c, f1]
        simp only [Ordering.then]
        exact h2.translt a b c hab hbc
  · intro a b hab c
    simp only at *
    have he : c1 a b = .eq ∧ c2 a b = .eq := by
      cases e1 : c1 a b
      · rw [e1] at hab; simp [Ordering.then] at hab
      · rw [e1] at hab; simp only [Ordering.then] at hab; exact ⟨rfl, hab⟩
      · rw [e1] at hab; simp [Ordering.then] at hab
    rw [h1.congr_left a b he.1 c, h2.congr_left a b he.2 c]

theorem lawful_cmpKey : LawfulCmp cmpKey := by
  have h : cmpKey = fun (a b : Nat × List SortTok × String) =>
      ((fun x y => cmpNat x.1 y.1) a b).then
        ((fun (x y : Nat × List SortTok × String) =>
          ((fun u v => cmpList cmpTok u.2.1 v.2.1) x y).then
            ((fun u v => cmpStr u.2.2 v.2.2) x y)) a b) := rfl
  rw [h]
  exact lawful_then (lawful_comap _ lawful_cmpNat)
    (lawful_then (lawful_comap _ (lawful_cmpList lawful_cmpTok))
      (lawful_comap _ lawful_cmpStr))

-- ---------------------------------------------------------------------------
-- C2 (code_bug). run_index's except handler (indexer.py lines 135-144) calls
-- conn.commit() after logging the error issue, without rolling back, so an
-- exception raised between clear_article_lines_for_run and the last
-- insert_bom_line publishes a partial line replacement to readers.
-- ---------------------------------------------------------------------------

/-- C2: the spec demands that one file's line replacement be all-or-nothing,
but when the second of two inserts raises (say json.dumps failing on a
raw_columns cell), the except handler's conn.commit() publishes a state with
the old lines deleted and only the first new line present — neither the prior
set nor the full new set. The exception-free path does replace atomically. -/
theorem C2_mid_file_exception_commits_partial_replacement :
    committedLinesFor
        (processBomFileTx
          { committed := [{ article_id := 1, payload := "old1" },
                          { article_id := 1, payload := "old2" }]
            current := [{ article_id := 1, payload := "old1" },
                        { article_id := 1, payload := "old2" }] }
          1 ["new1", "new2"] (some 1)) 1 = ["new1"] ∧
    committedLinesFor
        (processBomFileTx
          { committed := [{ article_id := 1, payload := "old1" },
                          { article_id := 1, payload := "old2" }]
            current := [{ article_id := 1, payload := "old1" },
                        { article_id := 1, payload := "old2" }] }
          1 ["new1", "new2"] none) 1 = ["new1", "new2"] ∧
    (["new1"] : List String) ≠ ["old1", "old2"] ∧
    (["new1"] : List String) ≠ ["new1", "new2"] := by decide

-- ---------------------------------------------------------------------------
-- C3 (confirmed). Change detection in run_index (indexer.py lines 75-87).
-- ---------------------------------------------------------------------------

/-- C3: a discovered BOM file is skipped — no parse and zero insert-bom-line
calls — exactly when its resolved path is a known article source whose
recorded microsecond-precision timestamp string and byte size both equal the
current filesystem values; an unknown path or a difference in either value
forces a full re-parse (one parse, one insert per nonempty-part line). -/
theorem C3_change_detection_skips_unchanged_files :
    ∀ (rows : List ArticleSrcRow) (resolvedPath modifiedAt : String)
      (sizeBytes : Int) (parsedPartNumbers : List String),
      (bomFileAction rows resolvedPath modifiedAt sizeBytes = .skip ↔
        ∃ row, lookupExistingByPath rows (lowerS resolvedPath) = some row ∧
          coalesceStr row.source_bom_modified_at = modifiedAt ∧
          row.source_bom_size_bytes.getD 0 = sizeBytes) ∧
      (bomFileAction rows resolvedPath modifiedAt sizeBytes = .skip →
        bomFileCalls rows resolvedPath modifiedAt sizeBytes parsedPartNumbers = (0, 0)) ∧
      (bomFileAction rows resolvedPath modifiedAt sizeBytes = .reparse →
        (bomFileCalls rows resolvedPath modifiedAt sizeBytes parsedPartNumbers).1 = 1) := by
  intro rows resolvedPath modifiedAt sizeBytes parsedPartNumbers
  refine ⟨?_, ?_, ?_⟩
  · unfold bomFileAction
    cases h : lookupExistingByPath rows (lowerS resolvedPath) with
    | none => simp
    | some existing =>
      simp only
      split_ifs with h1
      · simp only [Bool.and_eq_true, decide_eq_true_eq] at h1
        exact ⟨fun _ => ⟨existing, rfl, h1.1, h1.2⟩, fun _ => rfl⟩
      · constructor
        · intro hcon
          simp at hcon
        · rintro ⟨row, hrow, hm, hs⟩
          injection hrow with hrow
          subst hrow
          simp only [Bool.and_eq_true, decide_eq_true_eq, not_and] at h1
          exact absurd hs (h1 hm)
  · intro h
    unfold bomFileCalls
    rw [h]
  · intro h
    unfold bomFileCalls
    rw [h]

/-- Witness for C3: an unchanged file (known path, equal timestamp and size)
is skipped with zero calls; changing the size forces a re-parse. -/
theorem C3_witness :
    bomFileAction
        [{ id := 1, source_bom_path := some "/root/BOMS/BOM 100.xlsx",
           source_bom_modified_at := some "2024-01-01T00:00:00.000001",
           source_bom_size_bytes := some 100 }]
        "/root/BOMS/BOM 100.xlsx" "2024-01-01T00:00:00.000001" 100 = .skip ∧
    bomFileCalls
        [{ id := 1, source_bom_path := some "/root/BOMS/BOM 100.xlsx",
           source_bom_modified_at := some "2024-01-01T00:00:00.000001",
           source_bom_size_bytes := some 100 }]
        "/root/BOMS/BOM 100.xlsx" "2024-01-01T00:00:00.000001" 100 ["P-1"] = (0, 0) ∧
    bomFileAction
        [{ id := 1, source_bom_path := some "/root/BOMS/BOM 100.xlsx",
           source_bom_modified_at := some "2024-01-01T00:00:00.000001",
           source_bom_size_bytes := some 100 }]
        "/root/BOMS/BOM 100.xlsx" "2024-01-01T00:00:00.000001" 101 = .reparse := by
  have h := C3_change_detection_skips_unchanged_files
    [{ id := 1, source_bom_path := some "/root/BOMS/BOM 100.xlsx",
       source_bom_modified_at := some "2024-01-01T00:00:00.000001",
       source_bom_size_bytes := some 100 }]
    "/root/BOMS/BOM 100.xlsx" "2024-01-01T00:00:00.000001" 100 ["P-1"]
  have hskip : bomFileAction
      [{ id := 1, source_bom_path := some "/root/BOMS/BOM 100.xlsx",
         source_bom_modified_at := some "2024-01-01T00:00:00.000001",
         source_bom_size_bytes := some 100 }]
      "/root/BOMS/BOM 100.xlsx" "2024-01-01T00:00:00.000001" 100 = .skip := by decide
  exact ⟨hskip, h.2.1 hskip, by decide⟩

-- ---------------------------------------------------------------------------
-- C4 (corrected). upsert_part (db.py lines 207-220) uses
-- COALESCE(excluded.description, parts.description): a non-null incoming
-- description overwrites the stored one; only a null incoming description
-- leaves it untouched. The claim had the roles reversed.
-- ---------------------------------------------------------------------------

/-- C4 counterexample: a part whose description is "Old" gets "New" when
upsert_part is called again with a non-null description, so an existing
non-null description is not left unchanged. -/
theorem C4_counterexample :
    upsertPart [{ id := 1, part_number := "P", description := some "Old" }]
        "P" (some "New") =
      ([{ id := 1, part_number := "P", description := some "New" }], 1) ∧
    some "New" ≠ some "Old" := by decide

/-- C4 amended: on a conflicting upsert the row id and part_number are
preserved and the returned id is the existing row's, but the stored
description is kept only when the incoming description is null
(COALESCE(excluded.description, parts.description)); a non-null incoming
description overwrites every matching row's description. -/
theorem C4_upsert_part_preserves_identity_overwrites_description :
    ∀ (parts : List PartRow) (pn : String) (desc : Option String) (p : PartRow),
      parts.find? (fun q => q.part_number = pn) = some p →
      (upsertPart parts pn desc).2 = p.id ∧
      (upsertPart parts pn desc).1.map (fun r => r.id) = parts.map (fun r => r.id) ∧
      (upsertPart parts pn desc).1.map (fun r => r.part_number) =
        parts.map (fun r => r.part_number) ∧
      (upsertPart parts pn none).1 = parts ∧
      ∀ d r, desc = some d → r ∈ (upsertPart parts pn desc).1 →
        r.part_number = pn → r.description = some d := by
  intro parts pn desc p hfind
  unfold upsertPart
  rw [hfind]
  refine ⟨rfl, ?_, ?_, ?_, ?_⟩
  · rw [List.map_map]
    apply List.map_congr_left
    intro r _
    by_cases h : r.part_number = pn <;> simp [h]
  · rw [List.map_map]
    apply List.map_congr_left
    intro r _
    by_cases h : r.part_number = pn <;> simp [h]
  · simp only
    conv_rhs => rw [← List.map_id parts]
    apply List.map_congr_left
    intro r _
    by_cases h : r.part_number = pn
    · cases r
      simp_all [Option.orElse]
    · simp [h]
  · intro d r hd hmem hpn
    subst hd
    simp only [List.mem_map] at hmem
    obtain ⟨q, _, hq⟩ := hmem
    by_cases h : q.part_number = pn
    · rw [← hq]
      simp [h, Option.orElse]
    · rw [← hq] at hpn
      simp [h] at hpn

/-- Witness for C4's amended theorem at the counterexample table. -/
theorem C4_witness :
    (upsertPart [{ id := 1, part_number := "P", description := some "Old" }]
        "P" (some "New")).2 = 1 ∧
    (upsertPart [{ id := 1, part_number := "P", description := some "Old" }]
        "P" none).1 =
      [{ id := 1, part_number := "P", description := some "Old" }] := by
  have h := C4_upsert_part_preserves_identity_overwrites_description
    [{ id := 1, part_number := "P", description := some "Old" }] "P" (some "New")
    { id := 1, part_number := "P", description := some "Old" } (by decide)
  exact ⟨h.1, h.2.2.2.1⟩

-- ---------------------------------------------------------------------------
-- C5 (corrected). find_part_match_with_revision (indexer.py lines 430-445)
-- attaches a revision-less filename whenever ANY BOM line of the part has a
-- blank/NULL revision (empty_count > 0), even if several distinct non-blank
-- revisions coexist; the claim required ALL revisions blank for that branch.
-- ---------------------------------------------------------------------------

/-- C5 counterexample: the part's BOM lines carry revisions NULL, "A" and
"B" — two distinct non-blank revisions — yet the revision-less filename
"15-00407.STEP" is attached with reason matched_part_no_revision instead of
being left unlinked as ambiguous_revision_required. -/
theorem C5_counterexample :
    findPartMatchWithRevision exampleDbBlankAB "15-00407.STEP" =
      (some 1, none, some "matched_part_no_revision") ∧
    findPartMatchWithRevision exampleDbBlankAB "15-00407.STEP" ≠
      (none, none, some "ambiguous_revision_required") ∧
    (dedupFirst ((exampleDbBlankAB.bom_lines.filter (fun l => l.part_id = 1)).filterMap
        (fun l => l.revision))).length = 2 := by decide

/-- C5 amended: for a filename with a part token and no revision suffix, the
document is attached with matched_part_no_revision as soon as one BOM line of
the part has a blank (NULL or whitespace) revision; with no blank line it is
attached with matched_part_single_revision when at most one distinct
(uppercased) revision value exists, and left unlinked with
ambiguous_revision_required only when all lines carry non-blank revisions
with at least two distinct values. -/
theorem C5_revisionless_attachment_rule :
    ∀ (db : MatchDb) (filename pn : String) (p : PartRow),
      parseDocumentPartAndRevision filename = some (pn, none) →
      findPartByNumber db pn = some p →
      ((∃ l ∈ db.bom_lines.filter (fun l => l.part_id = p.id),
          sqlTrim (coalesceStr l.revision) = "") →
        findPartMatchWithRevision db filename =
          (some p.id, none, some "matched_part_no_revision")) ∧
      ((¬ ∃ l ∈ db.bom_lines.filter (fun l => l.part_id = p.id),
          sqlTrim (coalesceStr l.revision) = "") →
        (dedupFirst ((db.bom_lines.filter (fun l => l.part_id = p.id)).map
            (fun l => upperS (coalesceStr l.revision)))).length ≤ 1 →
        findPartMatchWithRevision db filename =
          (some p.id, none, some "matched_part_single_revision")) ∧
      ((¬ ∃ l ∈ db.bom_lines.filter (fun l => l.part_id = p.id),
          sqlTrim (coalesceStr l.revision) = "") →
        2 ≤ (dedupFirst ((db.bom_lines.filter (fun l => l.part_id = p.id)).map
            (fun l => upperS (coalesceStr l.revision)))).length →
        findPartMatchWithRevision db filename =
          (none, none, some "ambiguous_revision_required")) := by
  intro db filename pn p hparse hfind
  have hbridge :
      (0 < (db.bom_lines.filter (fun l => l.part_id = p.id)).countP
          (fun l => sqlTrim (coalesceStr l.revision) = "")) ↔
      ∃ l ∈ db.bom_lines.filter (fun l => l.part_id = p.id),
        sqlTrim (coalesceStr l.revision) = "" := by
    rw [List.countP_pos_iff]
    simp
  refine ⟨?_, ?_, ?_⟩
  · intro hex
    have h0 := hbridge.mpr hex
    simp only [findPartMatchWithRevision, hparse, hfind, h0, if_true]
  · intro hnex hle
    have h0 : ¬ 0 < (db.bom_lines.filter (fun l => l.part_id = p.id)).countP
        (fun l => sqlTrim (coalesceStr l.revision) = "") :=
      fun hpos => hnex (hbridge.mp hpos)
    simp only [findPartMatchWithRevision, hparse, hfind, h0, hle, if_true, if_false]
  · intro hnex hge
    have h0 : ¬ 0 < (db.bom_lines.filter (fun l => l.part_id = p.id)).countP
        (fun l => sqlTrim (coalesceStr l.revision) = "") :=
      fun hpos => hnex (hbridge.mp hpos)
    have h1 : ¬ (dedupFirst ((db.bom_lines.filter (fun l => l.part_id = p.id)).map
        (fun l => upperS (coalesceStr l.revision)))).length ≤ 1 := by omega
    simp only [findPartMatchWithRevision, hparse, hfind, h0, h1, if_true, if_false]

/-- Witness for C5's amended theorem: the blank-revision branch at the
concrete snapshot. -/
theorem C5_witness :
    findPartMatchWithRevision exampleDbBlankAB "15-00407.STEP" =
      (some 1, none, some "matched_part_no_revision") := by
  have h := C5_revisionless_attachment_rule exampleDbBlankAB "15-00407.STEP"
    "15-00407" { id := 1, part_number := "15-00407", description := some "Bracket" }
    (by decide) (by decide)
  exact h.1 (by decide)

-- ---------------------------------------------------------------------------
-- C1 (corrected). index_documents (indexer.py lines 196-200) falls through
-- to find_part_id_from_name whenever strategy 1 returned no part id — also
-- when its reason was revision_mismatch — and a part id found there links
-- the document with reason matched_part_fallback.
-- ---------------------------------------------------------------------------

/-- C1 counterexample: against an indexed part 15-00407 whose only BOM-line
revision is "B", the file "15-00407_A.PDF" is NOT left unlinked with
revision_mismatch: strategy 1 reports the mismatch, but the pipeline falls
through and the normalized-substring fallback links the document to the part
with reason matched_part_fallback. -/
theorem C1_counterexample :
    findPartMatchWithRevision exampleDbRevB "15-00407_A.PDF" =
      (none, none, some "revision_mismatch") ∧
    matchDocument exampleDbRevB "15-00407_A.PDF" =
      { linked_to_type := some "part", linked_id := some 1,
        part_revision := none, link_reason := some "matched_part_fallback" } ∧
    (matchDocument exampleDbRevB "15-00407_A.PDF").linked_id ≠ none ∧
    (matchDocument exampleDbRevB "15-00407_A.PDF").link_reason ≠
      some "revision_mismatch" := by decide

/-- C1 amended: when the filename's part token names an indexed part but no
BOM line of that part carries the extracted revision, strategy 1 returns
unlinked with reason revision_mismatch, and index_documents then falls
through to find_part_id_from_name: the document is linked with reason
matched_part_fallback when the fallback finds a part, and only otherwise
left unlinked with the revision_mismatch reason. -/
theorem C1_revision_mismatch_falls_through :
    ∀ (db : MatchDb) (filename pn rev : String) (p : PartRow),
      parseDocumentPartAndRevision filename = some (pn, some rev) →
      findPartByNumber db pn = some p →
      (db.bom_lines.any
        (fun l => l.part_id = p.id && upperS (coalesceStr l.revision) = rev)) = false →
      findPartMatchWithRevision db filename = (none, none, some "revision_mismatch") ∧
      matchDocument db filename =
        (match findPartIdFromName db filename with
         | some pid =>
           { linked_to_type := some "part", linked_id := some pid,
             part_revision := none, link_reason := some "matched_part_fallback" }
         | none =>
           { linked_to_type := none, linked_id := none,
             part_revision := none, link_reason := some "revision_mismatch" }) := by
  intro db filename pn rev p hparse hfind hany
  have h1 : findPartMatchWithRevision db filename =
      (none, none, some "revision_mismatch") := by
    simp only [findPartMatchWithRevision, hparse, hfind, hany]
    simp
  refine ⟨h1, ?_⟩
  cases hf : findPartIdFromName db filename with
  | some pid => simp only [matchDocument, h1, hf]
  | none => simp only [matchDocument, h1, hf]

/-- Witness for C1's amended theorem at the concrete snapshot, where the
fallback does find the part. -/
theorem C1_witness :
    findPartMatchWithRevision exampleDbRevB "15-00407_A.PDF" =
      (none, none, some "revision_mismatch") ∧
    matchDocument exampleDbRevB "15-00407_A.PDF" =
      { linked_to_type := some "part", linked_id := some 1,
        part_revision := none, link_reason := some "matched_part_fallback" } := by
  have h := C1_revision_mismatch_falls_through exampleDbRevB "15-00407_A.PDF"
    "15-00407" "A" { id := 1, part_number := "15-00407", description := some "Bracket" }
    (by decide) (by decide) (by decide)
  refine ⟨h.1, h.2.trans ?_⟩
  decide

-- ---------------------------------------------------------------------------
-- C6 (corrected). parse_sheet_rows (excel_parser.py lines 90-92) silently
-- drops every row whose mapped part_number cell reads blank, so such rows
-- never reach the warning branch of run_index: no warning issue is recorded
-- and warnings_count is unchanged (the indexer's branch fires only for a
-- parsed line with an empty part_number string, which the parser never
-- emits).
-- ---------------------------------------------------------------------------

theorem readCell_some_nonblank (row : List Cell) (mapping : List (Nat × String))
    (field s : String) (h : readCell row mapping field = some s) :
    pyStrip s ≠ "" := by
  unfold readCell at h
  split at h
  · exact absurd h (by simp)
  · split at h
    · exact absurd h (by simp)
    · split_ifs at h with hb
      simp only [Option.some.injEq] at h
      subst h
      exact hb

theorem parseSheetRows_part_nonempty (sheet : String) (rows : List (List Cell)) :
    ∀ l ∈ parseSheetRows sheet rows, l.part_number ≠ "" := by
  intro l hl
  unfold parseSheetRows at hl
  cases hdet : detectHeader rows with
  | mk o mapping =>
    rw [hdet] at hl
    cases o with
    | none => simp at hl
    | some headerIdx =>
      dsimp only at hl
      split_ifs at hl with hpn
      · rw [List.mem_filterMap] at hl
        obtain ⟨p, _, hsome⟩ := hl
        cases hrc : readCell p.2 mapping "part_number" <;> rw [hrc] at hsome
        · simp at hsome
        · injection hsome with hsome
          rw [← hsome]
          exact readCell_some_nonblank _ _ _ _ hrc
      · simp at hl

theorem runIndexLineLoop_all_nonempty (filePath : String)
    (lines : List ParsedLine) (h : ∀ l ∈ lines, l.part_number ≠ "") :
    runIndexLineLoop filePath lines = (0, lines.length, []) := by
  unfold runIndexLineLoop
  suffices aux : ∀ (ls : List ParsedLine) (acc : Nat × Nat × List RunIssue),
      (∀ l ∈ ls, l.part_number ≠ "") →
      ls.foldl
        (fun acc l =>
          if l.part_number = "" then
            (acc.1 + 1, acc.2.1,
             acc.2.2 ++
               [{ severity := "warning"
                  message := "Skipped BOM row without part number"
                  file_path := some filePath
                  sheet_name := some l.source_sheet
                  row_number := some l.source_row_number }])
          else (acc.1, acc.2.1 + 1, acc.2.2)) acc =
        (acc.1, acc.2.1 + ls.length, acc.2.2) by
    rw [aux lines (0, 0, []) h]
    simp
  intro ls
  induction ls with
  | nil => intro acc _; simp
  | cons x xs ih =>
    intro acc hall
    have hx : x.part_number ≠ "" := hall x (by simp)
    simp only [List.foldl_cons, if_neg hx]
    rw [ih _ (fun l hl => hall l (by simp [hl]))]
    have harith : acc.2.1 + 1 + xs.length = acc.2.1 + (xs.length + 1) := by omega
    simp only [List.length_cons]
    rw [harith]

/-- C6 counterexample: a sheet whose second data row has a blank part cell.
The parser emits only the SCREW-001 line, no line stems from the blank row
(sheet row 3), and the indexer's per-line loop records zero warnings, zero
issues and one insert — the claim's one-warning-per-blank-row behaviour does
not occur. -/
theorem C6_counterexample :
    (parseSheetRows "BOM" exampleSheet).map (fun l => l.part_number) =
      ["SCREW-001"] ∧
    (∀ l ∈ parseSheetRows "BOM" exampleSheet, l.source_row_number ≠ 3) ∧
    runIndexLineLoop "BOM 100.xlsx" (parseSheetRows "BOM" exampleSheet) =
      (0, 1, []) := by decide

/-- C6 amended: a BOM row whose mapped part_number cell is blank is skipped
silently by the sheet parser and never reaches the indexer: every parsed line
carries a nonempty part number, so the indexer's per-line loop logs no
warning issue, leaves the warnings count at zero, and inserts one BOM line
per parsed line. Skipping remains non-fatal. -/
theorem C6_blank_part_rows_skipped_silently :
    ∀ (sheet filePath : String) (rows : List (List Cell)),
      (∀ l ∈ parseSheetRows sheet rows, l.part_number ≠ "") ∧
      runIndexLineLoop filePath (parseSheetRows sheet rows) =
        (0, (parseSheetRows sheet rows).length, []) := by
  intro sheet filePath rows
  exact ⟨parseSheetRows_part_nonempty sheet rows,
    runIndexLineLoop_all_nonempty filePath _ (parseSheetRows_part_nonempty sheet rows)⟩

/-- Witness for C6's amended theorem at the concrete sheet. -/
theorem C6_witness :
    runIndexLineLoop "BOM 100.xlsx" (parseSheetRows "BOM" exampleSheet) =
      (0, (parseSheetRows "BOM" exampleSheet).length, []) :=
  (C6_blank_part_rows_skipped_silently "BOM" "BOM 100.xlsx" exampleSheet).2

-- ---------------------------------------------------------------------------
-- C7 / C8 helper lemmas: cart accumulation arithmetic.
-- ---------------------------------------------------------------------------

theorem contains_keys_iff (cart : Cart) (key : String) :
    (cart.map (fun p => p.1)).contains key = true ↔ key ∈ cart.map (fun p => p.1) := by
  simp [List.contains]

theorem cartQty_eq_zero_of_not_mem (cart : Cart) (key : String)
    (h : ¬ key ∈ cart.map (fun p => p.1)) : cartQty cart key = 0 := by
  unfold cartQty
  rw [List.find?_eq_none.mpr]
  · rfl
  · intro p hp
    simp only [decide_eq_true_eq]
    intro hkey
    exact h (List.mem_map.mpr ⟨p, hp, hkey⟩)

theorem cartQty_map_bump (cart : Cart) (key : String) (q : ℚ)
    (h : key ∈ cart.map (fun p => p.1)) :
    cartQty
        (cart.map fun p =>
          if p.1 = key then (p.1, { p.2 with qty_total := qadd p.2.qty_total q })
          else p) key =
      cartQty cart key + q := by
  induction cart with
  | nil => simp at h
  | cons p ps ih =>
    by_cases hp : p.1 = key
    · unfold cartQty
      rw [List.map_cons, if_pos hp]
      rw [List.find?_cons_of_pos _ (by simpa using hp),
        List.find?_cons_of_pos _ (by simpa using hp)]
      simp [qadd_eq]
    · unfold cartQty
      rw [List.map_cons, if_neg hp]
      rw [List.find?_cons_of_neg _ (by simpa using hp),
        List.find?_cons_of_neg _ (by simpa using hp)]
      have h' : key ∈ ps.map (fun p => p.1) := by
        rcases List.mem_map.mp h with ⟨r, hr, hrk⟩
        rcases List.mem_cons.mp hr with hr1 | hr1
        · exact absurd (hr1 ▸ hrk) hp
        · exact List.mem_map.mpr ⟨r, hr1, hrk⟩
      exact ih h'

theorem map_bump_keys (cart : Cart) (key : String) (q : ℚ) :
    (cart.map fun p =>
        if p.1 = key then (p.1, { p.2 with qty_total := qadd p.2.qty_total q })
        else p).map (fun p => p.1) =
      cart.map (fun p => p.1) := by
  rw [List.map_map]
  apply List.map_congr_left
  intro p _
  by_cases hp : p.1 = key <;> simp [hp]

/-- The accumulation step of add_leaf_row_to_cart: for a nonempty stripped
part number the call reports success and adds exactly the effective quantity
to the compound key (article id, item number, part number, uppercased
revision); every other key keeps its total. -/
theorem addLeafRowToCart_accumulates (db : ExpDb) (cart : Cart) (line : ExpLine)
    (sourceArticleId : Nat) (q : ℚ) (hpn : pyStrip line.part_number ≠ "") :
    (addLeafRowToCart db cart line sourceArticleId q).2 = true ∧
    cartQty (addLeafRowToCart db cart line sourceArticleId q).1
        (mkCartKey sourceArticleId (pyStrip (coalesceStr line.item_no))
          (pyStrip line.part_number) (upperS (pyStrip (coalesceStr line.revision)))) =
      cartQty cart
          (mkCartKey sourceArticleId (pyStrip (coalesceStr line.item_no))
            (pyStrip line.part_number) (upperS (pyStrip (coalesceStr line.revision)))) +
        q := by
  unfold addLeafRowToCart
  rw [if_neg hpn]
  refine ⟨rfl, ?_⟩
  dsimp only
  by_cases hk :
      ((cart.map (fun p => p.1)).contains
        (mkCartKey sourceArticleId (pyStrip (coalesceStr line.item_no))
          (pyStrip line.part_number) (upperS (pyStrip (coalesceStr line.revision))))) = true
  · rw [if_pos hk]
    exact cartQty_map_bump cart _ q ((contains_keys_iff _ _).mp hk)
  · rw [if_neg hk]
    have hmem := fun hm => hk ((contains_keys_iff _ _).mpr hm)
    rw [cartQty_eq_zero_of_not_mem cart _ hmem]
    rw [List.map_append]
    unfold cartQty
    rw [List.find?_append]
    rw [List.find?_eq_none.mpr, Option.none_or]
    · simp [qadd_eq]
    · intro p hp
      have hkeys := map_bump_keys cart
        (mkCartKey sourceArticleId (pyStrip (coalesceStr line.item_no))
          (pyStrip line.part_number) (upperS (pyStrip (coalesceStr line.revision)))) q
      simp only [decide_eq_true_eq]
      intro hkey
      exact hmem (by
        rw [← hkeys]
        exact List.mem_map.mpr ⟨p, hp, hkey⟩)

-- ---------------------------------------------------------------------------
-- C7 (confirmed). The explosion engine's guards (ui.py lines 1446-1482,
-- 1306-1315): depth cap, per-path cycle detection, empty-article warning,
-- warning deduplication — and totality (addArticleChildrenToCart is a total
-- function, so explosion terminates on every finite snapshot, cyclic ones
-- included, as the concrete cyclic run shows).
-- ---------------------------------------------------------------------------

/-- C7: order explosion never raises and always terminates — the engine is a
total function of the snapshot — and its guards behave as specified: at the
depth cap (fuel 0, i.e. depth > 20) it emits a max-depth warning and stops
descending without touching the cart; an article with no BOM lines emits a
no-lines warning and contributes nothing; a sub-assembly line whose resolved
article id is already in the per-path visited set emits a cycle warning
instead of recursing; the display dedup keeps one copy of each warning
(first occurrence) while preserving membership; and on the concrete
two-article cycle the explosion returns with a single cycle warning and an
unchanged cart. -/
theorem C7_explosion_guards :
    (∀ (db : ExpDb) (articleId : Nat) (qtyFactor : ℚ) (visited : List Nat)
      (st : ExpState),
      addArticleChildrenToCart db 0 articleId qtyFactor visited st =
        ({ st with warnings := st.warnings ++ [.maxDepth] }, 0)) ∧
    (∀ (db : ExpDb) (fuel articleId : Nat) (qtyFactor : ℚ) (visited : List Nat)
      (st : ExpState),
      expLinesOf db articleId = [] →
      addArticleChildrenToCart db (fuel + 1) articleId qtyFactor visited st =
        ({ st with warnings := st.warnings ++ [.noLines articleId] }, 0)) ∧
    (∀ (db : ExpDb) (fuel articleId childId : Nat) (qtyFactor : ℚ)
      (visited : List Nat) (st : ExpState) (line : ExpLine),
      expLinesOf db articleId = [line] →
      pyStrip line.part_number ≠ "" →
      resolveArticleRefId db.articles (pyStrip line.part_number) = some childId →
      childId ∈ visited →
      addArticleChildrenToCart db (fuel + 1) articleId qtyFactor visited st =
        ({ st with
            warnings := st.warnings ++ [.cycleDetected (pyStrip line.part_number)] },
         0)) ∧
    (∀ ws : List ExpWarning,
      (dedupWarnings ws).Nodup ∧ ∀ w, w ∈ dedupWarnings ws ↔ w ∈ ws) ∧
    (addArticleChildrenToCart exampleDbCycle 21 1 1 [1] ⟨[], []⟩ =
        (⟨[], [.cycleDetected "100"]⟩, 0) ∧
      dedupWarnings [.cycleDetected "100", .cycleDetected "100"] =
        [.cycleDetected "100"]) := by
  refine ⟨?_, ?_, ?_, ?_, ?_⟩
  · intro db articleId qtyFactor visited st
    rfl
  · intro db fuel articleId qtyFactor visited st h
    simp [addArticleChildrenToCart, h]
  · intro db fuel articleId childId qtyFactor visited st line hlines hpn hres hcid
    have hcontains : visited.contains childId = true := by
      simp [List.contains, hcid]
    simp only [addArticleChildrenToCart, hlines, List.isEmpty_cons, if_false,
      Bool.false_eq_true, List.foldl_cons, List.foldl_nil, if_neg hpn, hres,
      hcontains, if_true]
  · intro ws
    exact ⟨dedupFirst_nodup ws, fun w => mem_dedupFirst ws w⟩
  · exact ⟨by decide, by decide⟩

/-- Witness for C7 at concrete inputs: an unknown article id has no lines
and yields only the no-lines warning; the cycle branch fires on the cyclic
snapshot. -/
theorem C7_witness :
    addArticleChildrenToCart exampleDbCycle 21 99 1 [] ⟨[], []⟩ =
      (⟨[], [.noLines 99]⟩, 0) ∧
    addArticleChildrenToCart exampleDbCycle 20 2 1 [2, 1] ⟨[], []⟩ =
      (⟨[], [.cycleDetected "100"]⟩, 0) := by
  refine ⟨C7_explosion_guards.2.1 exampleDbCycle 20 99 1 [] ⟨[], []⟩ (by decide), ?_⟩
  exact C7_explosion_guards.2.2.1 exampleDbCycle 19 2 1 1 [2, 1] ⟨[], []⟩
    { part_id := 2, part_number := "100", qty := some 1, revision := none,
      item_no := none, description := some "d", material := none, finish := none }
    (by decide) (by decide) (by decide) (by decide)

-- ---------------------------------------------------------------------------
-- C8 (confirmed). Quantity multiplication (ui.py lines 1466-1481 and
-- 1515-1540): a node's own BOM quantity multiplies the factor passed down
-- (null counting as 1), and a terminal line adds its effective quantity to
-- the compound key.
-- ---------------------------------------------------------------------------

/-- C8: during explosion, the factor passed into a sub-assembly is the
incoming factor times the line's quantity (a null quantity counting as 1);
a terminal line adds exactly factor-times-quantity to its compound key
(owning article id, item number, part number, uppercased revision); and on
the concrete snapshot — factor 2 over a qty-3 sub-assembly line whose
article holds a qty-1 terminal part — the accumulated quantity under the
terminal part's key is 6 = 2 * 3 * 1. -/
theorem C8_explosion_quantity_multiplication :
    (∀ (db : ExpDb) (fuel articleId childId : Nat) (f : ℚ) (visited : List Nat)
      (st : ExpState) (line : ExpLine),
      expLinesOf db articleId = [line] →
      pyStrip line.part_number ≠ "" →
      resolveArticleRefId db.articles (pyStrip line.part_number) = some childId →
      ¬ childId ∈ visited →
      addArticleChildrenToCart db (fuel + 1) articleId f visited st =
        addArticleChildrenToCart db fuel childId (f * line.qty.getD 1)
          (childId :: visited) st) ∧
    (∀ (db : ExpDb) (cart : Cart) (line : ExpLine) (sourceArticleId : Nat) (q : ℚ),
      pyStrip line.part_number ≠ "" →
      (addLeafRowToCart db cart line sourceArticleId q).2 = true ∧
      cartQty (addLeafRowToCart db cart line sourceArticleId q).1
          (mkCartKey sourceArticleId (pyStrip (coalesceStr line.item_no))
            (pyStrip line.part_number) (upperS (pyStrip (coalesceStr line.revision)))) =
        cartQty cart
            (mkCartKey sourceArticleId (pyStrip (coalesceStr line.item_no))
              (pyStrip line.part_number) (upperS (pyStrip (coalesceStr line.revision)))) +
          q) ∧
    cartQty (addArticleChildrenToCart exampleDbNested 21 1 2 [1] ⟨[], []⟩).1.cart
        "2|10|P-1|" = 2 * 3 * 1 := by
  refine ⟨?_, ?_, ?_⟩
  · intro db fuel articleId childId f visited st line hlines hpn hres hnv
    have hcontains : visited.contains childId = false := by
      simp [List.contains, hnv]
    simp only [addArticleChildrenToCart, hlines, List.isEmpty_cons,
      Bool.false_eq_true, if_false, List.foldl_cons, List.foldl_nil,
      if_neg hpn, hres, hcontains, qmul_eq]
    simp
  · intro db cart line sourceArticleId q hpn
    exact addLeafRowToCart_accumulates db cart line sourceArticleId q hpn
  · have h6 : cartQty (addArticleChildrenToCart exampleDbNested 21 1 2 [1]
        ⟨[], []⟩).1.cart "2|10|P-1|" = 6 := by decide
    rw [h6]
    norm_num

/-- Witness for C8 at the concrete snapshot: the sub-assembly step passes
2 * 3 downward, and a leaf add puts the effective quantity on the key. -/
theorem C8_witness :
    addArticleChildrenToCart exampleDbNested 21 1 2 [1] ⟨[], []⟩ =
      addArticleChildrenToCart exampleDbNested 20 2
        (2 * ((some (3 : ℚ)).getD 1)) [2, 1] ⟨[], []⟩ ∧
    (addLeafRowToCart exampleDbNested []
        { part_id := 2, part_number := "P-1", qty := some 1, revision := none,
          item_no := some "10", description := some "d", material := none,
          finish := none } 2 6).2 = true := by
  constructor
  · exact C8_explosion_quantity_multiplication.1 exampleDbNested 20 1 2 2 [1]
      ⟨[], []⟩
      { part_id := 1, part_number := "200", qty := some 3, revision := none,
        item_no := some "1", description := some "d", material := none,
        finish := none }
      (by decide) (by decide) (by decide) (by decide)
  · exact (C8_explosion_quantity_multiplication.2.1 exampleDbNested []
      { part_id := 2, part_number := "P-1", qty := some 1, revision := none,
        item_no := some "10", description := some "d", material := none,
        finish := none } 2 6 (by decide)).1

-- ---------------------------------------------------------------------------
-- C9 (corrected). get_article_bom_lines sorts by the tuple
-- (group, segments, part_number): part_number is a tiebreaker BEFORE the
-- stable fallback to insertion order, which the claim omitted.
-- ---------------------------------------------------------------------------

instance : IsTotal BomSortRow bomRowLE :=
  ⟨fun a b => lawful_cmpKey.le_total (bomLineSortKey a) (bomLineSortKey b)⟩

instance : IsTrans BomSortRow bomRowLE :=
  ⟨fun _ _ _ hab hbc => lawful_cmpKey.le_trans hab hbc⟩

/-- C9 counterexample: two lines with blank item_no and no line_no, inserted
with part numbers "B" then "A". The claim's final fallback of insertion
order would keep [B, A]; the code orders by part_number and yields [A, B]. -/
theorem C9_counterexample :
    sortBomLines
        [{ item_no := none, line_no := none, part_number := some "B" },
         { item_no := none, line_no := none, part_number := some "A" }] =
      [{ item_no := none, line_no := none, part_number := some "A" },
       { item_no := none, line_no := none, part_number := some "B" }] ∧
    sortBomLines
        [{ item_no := none, line_no := none, part_number := some "B" },
         { item_no := none, line_no := none, part_number := some "A" }] ≠
      [{ item_no := none, line_no := none, part_number := some "B" },
       { item_no := none, line_no := none, part_number := some "A" }] := by decide

/-- C9 amended: the query returns a permutation of the article's rows sorted
by the key order (dotted item_no lines first in ascending segment-wise
order, then blank item_no lines ordered by line_no, then lines with
neither), with part_number as a tiebreaker before the final stable fallback
to insertion order (pairs already in key order keep their relative
positions). The spec's concrete example sorts "4" before "4.32.1" before
"4.32.2" regardless of insertion order. -/
theorem C9_bom_line_ordering :
    (∀ rows : List BomSortRow, (sortBomLines rows).Perm rows) ∧
    (∀ rows : List BomSortRow, (sortBomLines rows).Pairwise bomRowLE) ∧
    (∀ (rows : List BomSortRow) (a b : BomSortRow),
      bomRowLE a b → List.Sublist [a, b] rows →
        List.Sublist [a, b] (sortBomLines rows)) ∧
    ((sortBomLines
        [{ item_no := some "4.32.2", line_no := none, part_number := some "PART-C" },
         { item_no := some "4", line_no := none, part_number := some "PART-A" },
         { item_no := some "4.32.1", line_no := none, part_number := some "PART-B" }]).map
        (fun r => coalesceStr r.item_no) = ["4", "4.32.1", "4.32.2"]) ∧
    (sortBomLines
        [{ item_no := none, line_no := none, part_number := some "Z" },
         { item_no := none, line_no := some 1, part_number := some "Y" },
         { item_no := some "4", line_no := none, part_number := some "X" }]).map
        (fun r => coalesceStr r.part_number) = ["X", "Y", "Z"] := by
  refine ⟨?_, ?_, ?_, by decide, by decide⟩
  · intro rows
    exact List.perm_insertionSort bomRowLE rows
  · intro rows
    exact List.sorted_insertionSort bomRowLE rows
  · intro rows a b hab hsub
    exact List.pair_sublist_insertionSort hab hsub

/-- Witness for C9's amended theorem: a key-ordered pair of rows keeps its
relative order through the sort. -/
theorem C9_witness :
    List.Sublist
      [({ item_no := some "4", line_no := none, part_number := some "X" } : BomSortRow),
       { item_no := none, line_no := some 1, part_number := some "Y" }]
      (sortBomLines
        [{ item_no := some "4", line_no := none, part_number := some "X" },
         { item_no := none, line_no := some 1, part_number := some "Y" }]) :=
  C9_bom_line_ordering.2.2.1
    [{ item_no := some "4", line_no := none, part_number := some "X" },
     { item_no := none, line_no := some 1, part_number := some "Y" }]
    { item_no := some "4", line_no := none, part_number := some "X" }
    { item_no := none, line_no := some 1, part_number := some "Y" }
    (by decide) (List.Sublist.refl _)

-- ---------------------------------------------------------------------------
-- C10 (confirmed). get_documents_for_part_revision (search.py lines 151-173).
-- ---------------------------------------------------------------------------

/-- C10: with a non-blank revision the query returns only the part-linked
documents whose stored part_revision equals it case-insensitively — when at
least one such document exists — and silently falls back to every document
linked to the part when none does; a blank or missing revision returns every
part-linked document; consequently the result is never empty while the part
has any linked document at all. -/
theorem C10_revision_query_falls_back :
    (∀ (docs : List DocRow) (partId : Nat),
      getDocumentsForPartRevision docs partId none = docsLinkedToPart docs partId) ∧
    (∀ (docs : List DocRow) (partId : Nat) (r : String),
      pyStrip r = "" →
      getDocumentsForPartRevision docs partId (some r) = docsLinkedToPart docs partId) ∧
    (∀ (docs : List DocRow) (partId : Nat) (r : String),
      (∃ d ∈ docs, d.linked_to_type = some "part" ∧ d.linked_id = some partId ∧
        upperS (coalesceStr d.part_revision) = upperS (pyStrip (coalesceStr (some r)))) →
      ∀ d ∈ getDocumentsForPartRevision docs partId (some r),
        d.linked_to_type = some "part" ∧ d.linked_id = some partId ∧
          (r ≠ "" → pyStrip r ≠ "" →
            upperS (coalesceStr d.part_revision) = upperS (pyStrip (coalesceStr (some r))))) ∧
    (∀ (docs : List DocRow) (partId : Nat) (r : String),
      (¬ ∃ d ∈ docs, d.linked_to_type = some "part" ∧ d.linked_id = some partId ∧
        upperS (coalesceStr d.part_revision) = upperS (pyStrip (coalesceStr (some r)))) →
      getDocumentsForPartRevision docs partId (some r) = docsLinkedToPart docs partId) ∧
    (∀ (docs : List DocRow) (partId : Nat) (rev : Option String),
      (∃ d ∈ docs, d.linked_to_type = some "part" ∧ d.linked_id = some partId) →
      getDocumentsForPartRevision docs partId rev ≠ []) := by
  have hmemLinked : ∀ (docs : List DocRow) (partId : Nat) (d : DocRow),
      d ∈ docs → d.linked_to_type = some "part" → d.linked_id = some partId →
      d ∈ docsLinkedToPart docs partId := by
    intro docs partId d hd h1 h2
    unfold docsLinkedToPart
    rw [List.mem_insertionSort]
    exact List.mem_filter.mpr ⟨hd, by simp [h1, h2]⟩
  have hlinkedProps : ∀ (docs : List DocRow) (partId : Nat) (d : DocRow),
      d ∈ docsLinkedToPart docs partId →
      d.linked_to_type = some "part" ∧ d.linked_id = some partId := by
    intro docs partId d hd
    unfold docsLinkedToPart at hd
    rw [List.mem_insertionSort] at hd
    have h := (List.mem_filter.mp hd).2
    simp only [Bool.and_eq_true, decide_eq_true_eq] at h
    exact h
  have hlinkedNe : ∀ (docs : List DocRow) (partId : Nat),
      (∃ d ∈ docs, d.linked_to_type = some "part" ∧ d.linked_id = some partId) →
      docsLinkedToPart docs partId ≠ [] := by
    rintro docs partId ⟨d, hd, h1, h2⟩ hcon
    have hmem := hmemLinked docs partId d hd h1 h2
    rw [hcon] at hmem
    simp at hmem
  refine ⟨?_, ?_, ?_, ?_, ?_⟩
  · intro docs partId
    rfl
  · intro docs partId r hr
    simp only [getDocumentsForPartRevision]
    simp [hr]
  · intro docs partId r hex d hd
    simp only [getDocumentsForPartRevision] at hd
    split_ifs at hd with h1 h2
    · exfalso
      obtain ⟨d', hd', hp1, hp2, hp3⟩ := hex
      have hmem : d' ∈ (docs.filter fun d =>
          d.linked_to_type = some "part" && d.linked_id = some partId &&
            upperS (coalesceStr d.part_revision) =
              upperS (pyStrip (coalesceStr (some r)))).insertionSort docLE := by
        rw [List.mem_insertionSort]
        exact List.mem_filter.mpr ⟨hd', by simp [hp1, hp2, hp3]⟩
      rw [List.isEmpty_eq_true] at h2
      rw [h2] at hmem
      simp at hmem
    · rw [List.mem_insertionSort] at hd
      have h := (List.mem_filter.mp hd).2
      simp only [Bool.and_eq_true, decide_eq_true_eq] at h
      exact ⟨h.1.1, h.1.2, fun _ _ => h.2⟩
    · have h := hlinkedProps docs partId d hd
      refine ⟨h.1, h.2, fun hr1 hr2 => ?_⟩
      exact absurd (by simp [hr1, hr2]) h1
  · intro docs partId r hnex
    have hfil : (docs.filter fun d =>
        d.linked_to_type = some "part" && d.linked_id = some partId &&
          upperS (coalesceStr d.part_revision) =
            upperS (pyStrip (coalesceStr (some r)))) = [] := by
      rw [List.filter_eq_nil_iff]
      intro d hd hcon
      simp only [Bool.and_eq_true, decide_eq_true_eq] at hcon
      exact hnex ⟨d, hd, hcon.1.1, hcon.1.2, hcon.2⟩
    simp only [getDocumentsForPartRevision]
    split_ifs with h1 h2
    · rfl
    · exact absurd (by rw [hfil]; rfl) h2
    · rfl
  · intro docs partId rev hex
    simp only [getDocumentsForPartRevision]
    split_ifs with h1 h2
    · exact hlinkedNe docs partId hex
    · intro hcon
      rw [hcon] at h2
      exact h2 rfl
    · exact hlinkedNe docs partId hex

/-- Witness for C10: for a part with two linked documents carrying revisions
"B" and "A", asking for revision "C" (carried by no document) falls back to
every linked document of the part, and the result for any revision is
nonempty. -/
theorem C10_witness :
    getDocumentsForPartRevision
        [{ id := 1, filename := "a.pdf", path := "/d/a.pdf",
           linked_to_type := some "part", linked_id := some 5, part_revision := some "B" },
         { id := 2, filename := "b.pdf", path := "/d/b.pdf",
           linked_to_type := some "part", linked_id := some 5, part_revision := some "A" }]
        5 (some "C") =
      docsLinkedToPart
        [{ id := 1, filename := "a.pdf", path := "/d/a.pdf",
           linked_to_type := some "part", linked_id := some 5, part_revision := some "B" },
         { id := 2, filename := "b.pdf", path := "/d/b.pdf",
           linked_to_type := some "part", linked_id := some 5, part_revision := some "A" }]
        5 ∧
    getDocumentsForPartRevision
        [{ id := 1, filename := "a.pdf", path := "/d/a.pdf",
           linked_to_type := some "part", linked_id := some 5, part_revision := some "B" },
         { id := 2, filename := "b.pdf", path := "/d/b.pdf",
           linked_to_type := some "part", linked_id := some 5, part_revision := some "A" }]
        5 (some "a") ≠ [] := by
  constructor
  · exact C10_revision_query_falls_back.2.2.2.1
      [{ id := 1, filename := "a.pdf", path := "/d/a.pdf",
         linked_to_type := some "part", linked_id := some 5, part_revision := some "B" },
       { id := 2, filename := "b.pdf", path := "/d/b.pdf",
         linked_to_type := some "part", linked_id := some 5, part_revision := some "A" }]
      5 "C" (by decide)
  · exact C10_revision_query_falls_back.2.2.2.2
      [{ id := 1, filename := "a.pdf", path := "/d/a.pdf",
         linked_to_type := some "part", linked_id := some 5, part_revision := some "B" },
       { id := 2, filename := "b.pdf", path := "/d/b.pdf",
         linked_to_type := some "part", linked_id := some 5, part_revision := some "A" }]
      5 (some "a")
      ⟨{ id := 1, filename := "a.pdf", path := "/d/a.pdf",
         linked_to_type := some "part", linked_id := some 5, part_revision := some "B" },
       List.Mem.head _, rfl, rfl⟩

end ADM

